import Mathlib

/-!
Verification development for the StatTrust/StatGPT compiled-NFL converter.

The repository contains four generations of the same Node script that turn a
messy, vendor-sourced matchup JSON into the canonical v1 schema:

* src/unnamed/part_002 — the full converter (convertCompiledNFLObject and all
  section extractors); this is the engine the specification describes.
* src/docs/scripts/convert-compiled-nfl.js — the "robust pass" with recursive
  search, detectTeamKeys, extractMoneyLineHistory and reduceRange.
* src/unnamed/part_000 and part_001 — earlier passes of the same converter.

This file shallowly embeds the JavaScript semantics needed by the claims:

* JSON trees are modelled by JVal (JavaScript undefined is distinguished from
  null because the code distinguishes them through the ?? operator and falls
  into exceptions only on those two values).
* JavaScript numbers are modelled by the rationals.  All values the converter
  manipulates originate from JSON (hence are finite); NaN produced by failed
  parses is modelled by Option (none = NaN / null as each context requires,
  noted locally).  This floating-point-free model is exact for the decimal
  values the program handles.
* A property access on null or undefined throws a TypeError; this is modelled
  by Except JErr, everything else is total.
* Wall-clock reads (new Date().toISOString() and getFullYear()) are modelled
  by explicit parameters nowIso / clockYear threaded to exactly the places the
  source reads the clock.
* String() coercion of a non-integral number is rendered as num/den; the
  converter only ever tests such strings for alphabetic substrings, for which
  the rendering is equivalent to the JavaScript one.
-/

namespace StatGPT

/-- Model of a JSON/JavaScript value as manipulated by the converter. -/
inductive JVal where
  | null
  | undefined
  | bool (b : Bool)
  | num (q : ℚ)
  | str (s : String)
  | arr (xs : List JVal)
  | obj (fields : List (String × JVal))

/-- A thrown TypeError: reading the named property of null or undefined. -/
inductive JErr where
  | typeError (prop : String)
deriving DecidableEq

/-- null and undefined are the only values whose property reads throw. -/
def JVal.isNullish : JVal → Bool
  | .null => true
  | .undefined => true
  | _ => false

/-- JavaScript truthiness.  NaN never inhabits JVal (values come from JSON). -/
def jsTruthy : JVal → Bool
  | .null => false
  | .undefined => false
  | .bool b => b
  | .num q => !(decide (q = 0))
  | .str s => !(s == "")
  | .arr _ => true
  | .obj _ => true

/-- JavaScript logical-or on values: a || b. -/
def jsOr (a b : JVal) : JVal := if jsTruthy a then a else b

/-- JavaScript nullish coalescing: a ?? b. -/
def jsNullish (a b : JVal) : JVal := if a.isNullish then b else a

/-- Property read on a value known not to be null/undefined.  Objects use the
field list in insertion order (duplicate keys do not occur in parsed JSON);
every other value has no own properties the converter asks for. -/
def propOf : JVal → String → JVal
  | .obj fs, k =>
    match fs.find? (fun p => p.1 == k) with
    | some p => p.2
    | none => .undefined
  | _, _ => .undefined

/-- Property read with JavaScript exception behaviour: obj.k / obj[k]. -/
def getProp (v : JVal) (k : String) : Except JErr JVal :=
  if v.isNullish then .error (.typeError k) else .ok (propOf v k)

/-- Array.isArray, returning the elements when the value is an array. -/
def asArr : JVal → Option (List JVal)
  | .arr xs => some xs
  | _ => none

/-- Object.keys on the values the converter inspects (non-objects have none). -/
def objKeys : JVal → List String
  | .obj fs => fs.map (fun p => p.1)
  | _ => []

/-- The guard cur and hasOwnProperty.call(cur, key) from the helper get() in
part_002: truthiness short-circuits null/undefined, and for the string keys
the converter uses, only plain objects can own the property. -/
def hasOwnStep : JVal → String → Bool
  | .obj fs, k => fs.any (fun p => p.1 == k)
  | _, _ => false

/-- The helper get(obj, pathArr, defaultValue) from part_002; it never throws. -/
def jsGet : JVal → List String → JVal → JVal
  | cur, [], _ => cur
  | cur, k :: ks, d => if hasOwnStep cur k then jsGet (propOf cur k) ks d else d

/-- ASCII lower-casing of one character (JavaScript toLowerCase on the ASCII
strings the converter compares). -/
def lcChar (c : Char) : Char :=
  if 'A' ≤ c ∧ c ≤ 'Z' then Char.ofNat (c.toNat + 32) else c

/-- ASCII upper-casing of one character. -/
def ucChar (c : Char) : Char :=
  if 'a' ≤ c ∧ c ≤ 'z' then Char.ofNat (c.toNat - 32) else c

/-- String.prototype.toLowerCase for the ASCII data in play. -/
def jsLower (s : String) : String := String.mk (s.data.map lcChar)

/-- String.prototype.toUpperCase for the ASCII data in play. -/
def jsUpper (s : String) : String := String.mk (s.data.map ucChar)

/-- JavaScript whitespace (the ASCII part; the data contains no exotic WS). -/
def isJsWS (c : Char) : Bool := c == ' ' || c == '\t' || c == '\n' || c == '\r'

/-- String.prototype.trim. -/
def jsTrim (s : String) : String :=
  String.mk (((s.data.dropWhile isJsWS).reverse.dropWhile isJsWS).reverse)

/-- Does the second list start with the first one? -/
def subAt : List Char → List Char → Bool
  | [], _ => true
  | _ :: _, [] => false
  | a :: as_, b :: bs => (a == b) && subAt as_ bs

/-- Substring search over character lists. -/
def hasSubList (needle : List Char) : List Char → Bool
  | [] => needle.isEmpty
  | c :: rest => subAt needle (c :: rest) || hasSubList needle rest

/-- hay.includes(needle) on strings. -/
def containsSub (needle hay : String) : Bool := hasSubList needle.data hay.data

/-- s.startsWith(px). -/
def startsW (px s : String) : Bool := subAt px.data s.data

/-- Digit run to a natural number. -/
def digitsToNat (l : List Char) : Nat := l.foldl (fun n c => n * 10 + (c.toNat - 48)) 0

mutual

/-- String() coercion.  Integral numbers render exactly as in JavaScript;
non-integral ones render as num/den, equivalent for the alphabetic-substring
tests that are the only uses of coerced non-string values here. -/
def jsToString : JVal → String
  | .null => "null"
  | .undefined => "undefined"
  | .bool b => if b then "true" else "false"
  | .num q => if q.den = 1 then toString q.num else toString q.num ++ "/" ++ toString q.den
  | .str s => s
  | .obj _ => "[object Object]"
  | .arr xs => String.intercalate "," (jsArrStrings xs)

/-- Array.prototype.toString joins elements with commas, rendering null and
undefined elements as empty strings. -/
def jsArrStrings : List JVal → List String
  | [] => []
  | v :: rest =>
    (match v with
     | .null => ""
     | .undefined => ""
     | w => jsToString w) :: jsArrStrings rest

end

/-- parseInt(s, 10) on a character list with no leading whitespace left:
optional sign then a leading digit run, NaN (none) when no digits. -/
def jsParseInt : List Char → Option Int
  | [] => none
  | c :: rest =>
    let (sgn, ds) : Int × List Char :=
      if c = '-' then (-1, rest) else if c = '+' then (1, rest) else (1, c :: rest)
    let digs := ds.takeWhile Char.isDigit
    if digs.isEmpty then none else some (sgn * (digitsToNat digs : Int))

/-- parseInt(String(v), 10): leading whitespace is skipped by parseInt. -/
def jsParseIntOf (v : JVal) : Option Int :=
  jsParseInt ((jsToString v).data.dropWhile isJsWS)

/-- Number(s) on a (whitespace-free) character list: none models NaN.  The
empty list yields 0.  Decimal and exponent literals are parsed exactly;
hexadecimal and Infinity literals — which the converter never receives — are
conservatively mapped to NaN. -/
def jsNumberChars (l : List Char) : Option ℚ :=
  match l with
  | [] => some 0
  | _ =>
    let (sgn, l1) : Int × List Char :=
      match l with
      | '-' :: r => (-1, r)
      | '+' :: r => (1, r)
      | _ => (1, l)
    let ip := l1.takeWhile Char.isDigit
    let l2 := l1.drop ip.length
    let mant : Option (ℚ × List Char) :=
      match l2 with
      | '.' :: l3 =>
        let fp := l3.takeWhile Char.isDigit
        if ip.isEmpty ∧ fp.isEmpty then none
        else if fp.isEmpty then
          some (((sgn * (digitsToNat ip : Int) : Int) : ℚ), l3)
        else
          some ((((sgn * ((digitsToNat ip * 10 ^ fp.length + digitsToNat fp : Nat) : Int) : Int) : ℚ)
                  / ((10 : ℚ) ^ fp.length)), l3.drop fp.length)
      | _ =>
        if ip.isEmpty then none
        else some (((sgn * (digitsToNat ip : Int) : Int) : ℚ), l2)
    match mant with
    | none => none
    | some (q, rest) =>
      match rest with
      | [] => some q
      | e :: erest =>
        if e = 'e' ∨ e = 'E' then
          match erest with
          | [] => none
          | _ =>
            let (esgn, ds) : Int × List Char :=
              match erest with
              | '-' :: r => (-1, r)
              | '+' :: r => (1, r)
              | _ => (1, erest)
            if ds ≠ [] ∧ ds.all Char.isDigit then
              some (q * (10 : ℚ) ^ (esgn * (digitsToNat ds : Int)))
            else none
        else none

/-- Number(s) after the JavaScript engine trims surrounding whitespace. -/
def jsNumberOfString (s : String) : Option ℚ :=
  jsNumberChars ((jsTrim s).data)

/-- parseNumberOrNull from part_002. -/
def parseNumberOrNull (v : JVal) : Option ℚ :=
  match v with
  | .num q => some q
  | .str s =>
    let t := jsTrim s
    if t = "" ∨ t = "--" then none
    else jsNumberOfString (String.mk (t.data.filter (fun c => c ≠ ',')))
  | _ => none

/-- The anchored prefix match of parseOdds in part_002: an optional sign, a
digit run, and optionally a dot followed by a digit run; trailing characters
are ignored as the regular expression has no end anchor. -/
def oddsPre (l : List Char) : Option ℚ :=
  let (sgn, l1) : Int × List Char :=
    match l with
    | '-' :: r => (-1, r)
    | '+' :: r => (1, r)
    | _ => (1, l)
  let ip := l1.takeWhile Char.isDigit
  if ip.isEmpty then none
  else
    match l1.drop ip.length with
    | '.' :: l3 =>
      let fp := l3.takeWhile Char.isDigit
      if fp.isEmpty then some ((sgn * (digitsToNat ip : Int) : Int) : ℚ)
      else some (((sgn * ((digitsToNat ip * 10 ^ fp.length + digitsToNat fp : Nat) : Int) : Int) : ℚ)
                  / ((10 : ℚ) ^ fp.length))
    | _ => some ((sgn * (digitsToNat ip : Int) : Int) : ℚ)

/-- parseOdds from part_002. -/
def parseOdds (v : JVal) : Option ℚ :=
  match v with
  | .num q => some q
  | .str s =>
    let t := jsTrim s
    if t = "" ∨ t = "--" then none else oddsPre t.data
  | _ => none

/-- Is the character in the class of digits and dots used by the
percent-and-rank regular expressions? -/
def digitDot (c : Char) : Bool := c.isDigit || c == '.'

/-- Matcher for the anchored pattern: a nonempty digits-and-dots run, then a
percent sign, optional whitespace, a literal hash-in-parens rank of one or
more digits, end of string.  Returns the two captured runs. -/
def pctRankPctShape (l : List Char) : Option (List Char × List Char) :=
  let a := l.takeWhile digitDot
  if a.isEmpty then none
  else
    match l.drop a.length with
    | '%' :: rest =>
      match rest.dropWhile isJsWS with
      | '(' :: '#' :: r3 =>
        let d := r3.takeWhile Char.isDigit
        if d.isEmpty then none
        else
          match r3.drop d.length with
          | [')'] => some (a, d)
          | _ => none
      | _ => none
    | _ => none

/-- Matcher for the same pattern without the percent sign. -/
def pctRankNumShape (l : List Char) : Option (List Char × List Char) :=
  let a := l.takeWhile digitDot
  if a.isEmpty then none
  else
    match (l.drop a.length).dropWhile isJsWS with
    | '(' :: '#' :: r3 =>
      let d := r3.takeWhile Char.isDigit
      if d.isEmpty then none
      else
        match r3.drop d.length with
        | [')'] => some (a, d)
        | _ => none
    | _ => none

/-- Matcher for a digits-and-dots run followed by a final percent sign. -/
def pctOnlyShape (l : List Char) : Option (List Char) :=
  let a := l.takeWhile digitDot
  if a.isEmpty then none
  else
    match l.drop a.length with
    | ['%'] => some a
    | _ => none

/-- The value-and-optional-rank record produced by parsePercentRank.  The
value slot holds a number, or the original string on the lossless fallback. -/
structure PercentRank where
  value : JVal
  rank : Option ℚ

/-- A possibly-NaN numeric result stored into a value slot; NaN serialises to
null in JSON output, so it is modelled by JVal.null. -/
def numOrNaN : Option ℚ → JVal
  | some q => .num q
  | none => .null

/-- parsePercentRank from part_002. -/
def parsePercentRank (v : JVal) : Option PercentRank :=
  match v with
  | .str s0 =>
    let s := jsTrim s0
    if s = "" ∨ s = "--" then none
    else
      let l := s.data
      match pctRankPctShape l with
      | some (a, d) =>
        some ⟨numOrNaN ((jsNumberChars a).map (fun q => q / 100)), some ((digitsToNat d : ℚ))⟩
      | none =>
        match pctRankNumShape l with
        | some (a, d) =>
          some ⟨numOrNaN (jsNumberChars a), some ((digitsToNat d : ℚ))⟩
        | none =>
          match pctOnlyShape l with
          | some a =>
            some ⟨numOrNaN ((jsNumberChars a).map (fun q => q / 100)), none⟩
          | none =>
            match parseNumberOrNull (.str s) with
            | some n => some ⟨.num n, none⟩
            | none => some ⟨.str s, none⟩
  | other =>
    match parseNumberOrNull other with
    | some n => some ⟨.num n, none⟩
    | none => none

/-- parsePercent from part_002. -/
def parsePercent (v : JVal) : Option ℚ :=
  match v with
  | .null => none
  | .undefined => none
  | .num q => some q
  | other =>
    let s := jsTrim (jsToString other)
    if s = "" ∨ s = "--" then none
    else
      match pctOnlyShape s.data with
      | none => parseNumberOrNull (.str s)
      | some a => (jsNumberChars a).map (fun q => q / 100)

/-- padStart(2, zero) as applied to the stringified date components. -/
def pad2 (s : String) : String :=
  if s.length < 2 then String.mk (List.replicate (2 - s.length) '0') ++ s else s

/-- The months object of part_002 (lower-case keys). -/
def monthMapLookup (m : String) : Option Nat :=
  [("jan", 1), ("feb", 2), ("mar", 3), ("apr", 4), ("may", 5), ("jun", 6),
   ("jul", 7), ("aug", 8), ("sep", 9), ("oct", 10), ("nov", 11), ("dec", 12)].findSome?
    (fun p => if p.1 = m then some p.2 else none)

/-- Scan three ASCII letters. -/
def scanAlpha3 (l : List Char) : Option (String × List Char) :=
  match l with
  | c1 :: c2 :: c3 :: rest =>
    if c1.isAlpha ∧ c2.isAlpha ∧ c3.isAlpha then some (String.mk [c1, c2, c3], rest) else none
  | _ => none

/-- Scan one-or-more whitespace characters. -/
def scanWsPlus (l : List Char) : Option (List Char) :=
  match l with
  | c :: rest => if isJsWS c then some (rest.dropWhile isJsWS) else none
  | [] => none

/-- Scan a run of one or two digits (the bounded quantifier of the label
grammars; a longer digit run fails them just as the anchored regex does). -/
def scanDigits12 (l : List Char) : Option (Nat × List Char) :=
  let d := l.takeWhile Char.isDigit
  if d.length = 1 ∨ d.length = 2 then some (digitsToNat d, l.drop d.length) else none

/-- Scan exactly two digits. -/
def scanDigits2 (l : List Char) : Option (Nat × List Char) :=
  match l with
  | a :: b :: rest => if a.isDigit ∧ b.isDigit then some (digitsToNat [a, b], rest) else none
  | _ => none

/-- Scan optional whitespace then a case-insensitive AM/PM marker ending the
string; returns true for PM. -/
def scanAmPmCI (l : List Char) : Option Bool :=
  match l.dropWhile isJsWS with
  | [a, m] =>
    if lcChar m = 'm' then
      if lcChar a = 'a' then some false else if lcChar a = 'p' then some true else none
    else none
  | _ => none

/-- The month-name label grammar of part_002: three letters, spaces, day,
spaces, hour, colon, two-digit minute, optional spaces, AM or PM. -/
def tsShapeMon (l : List Char) : Option (String × Nat × Nat × Nat × Bool) :=
  match scanAlpha3 l with
  | none => none
  | some (mon, r1) =>
    match scanWsPlus r1 with
    | none => none
    | some r2 =>
      match scanDigits12 r2 with
      | none => none
      | some (dd, r3) =>
        match scanWsPlus r3 with
        | none => none
        | some r4 =>
          match scanDigits12 r4 with
          | none => none
          | some (hh, r5) =>
            match r5 with
            | ':' :: r6 =>
              match scanDigits2 r6 with
              | none => none
              | some (mi, r7) =>
                match scanAmPmCI r7 with
                | none => none
                | some pm => some (mon, dd, hh, mi, pm)
            | _ => none

/-- The numeric label grammar of part_002: month slash day, spaces, hour,
colon, two-digit minute, optional spaces, AM or PM. -/
def tsShapeSlash (l : List Char) : Option (Nat × Nat × Nat × Nat × Bool) :=
  match scanDigits12 l with
  | none => none
  | some (mm, r1) =>
    match r1 with
    | '/' :: r2 =>
      match scanDigits12 r2 with
      | none => none
      | some (dd, r3) =>
        match scanWsPlus r3 with
        | none => none
        | some r4 =>
          match scanDigits12 r4 with
          | none => none
          | some (hh, r5) =>
            match r5 with
            | ':' :: r6 =>
              match scanDigits2 r6 with
              | none => none
              | some (mi, r7) =>
                match scanAmPmCI r7 with
                | none => none
                | some pm => some (mm, dd, hh, mi, pm)
            | _ => none
    | _ => none

/-- The label-and-timestamp pair returned by parseTimestampLabel. -/
structure TSRes where
  label : JVal
  timestamp : Option String

/-- The string interpolation building the ISO timestamp in part_002; a month
name outside the map renders its undefined lookup literally, as the template
literal does. -/
def isoOfParts (yearV : JVal) (monthPart : Option Nat) (dd hh mi : Nat) : String :=
  let mmStr := match monthPart with
    | some n => pad2 (toString n)
    | none => "undefined"
  jsToString yearV ++ "-" ++ mmStr ++ "-" ++ pad2 (toString dd) ++ "T" ++
    pad2 (toString hh) ++ ":" ++ pad2 (toString mi) ++ ":00Z"

/-- parseTimestampLabel from part_002.  The clockYear parameter models the
new Date().getFullYear() read used when seasonYear is falsy. -/
def parseTimestampLabel (label : JVal) (seasonYear : JVal) (clockYear : Int) : TSRes :=
  match label with
  | .str s =>
    if s = "" then ⟨jsNullish label .null, none⟩
    else
      let trimmed := jsTrim s
      let yearV := jsOr seasonYear (.num (clockYear : ℚ))
      match tsShapeMon trimmed.data with
      | some (mon, dd, hh, mi, pm) =>
        let mm := monthMapLookup (jsLower mon)
        let hh24 := hh % 12 + (if pm then 12 else 0)
        ⟨.str trimmed, some (isoOfParts yearV mm dd hh24 mi)⟩
      | none =>
        match tsShapeSlash trimmed.data with
        | some (mm, dd, hh, mi, pm) =>
          let hh24 := hh % 12 + (if pm then 12 else 0)
          ⟨.str trimmed, some (isoOfParts yearV (some mm) dd hh24 mi)⟩
        | none => ⟨.str trimmed, none⟩
  | other => ⟨jsNullish other .null, none⟩

/-- normalizeInjuryStatus from part_002. -/
def normalizeInjuryStatus (status : JVal) : Option String :=
  if !jsTruthy status then none
  else
    let s := jsUpper (jsTrim (jsToString status))
    if containsSub "PROB" s then some "PROBABLE"
    else if containsSub "QUESTION" s then some "QUESTIONABLE"
    else if s = "IR" ∨ containsSub "INJURED RESERVE" s then some "I-R"
    else if containsSub "OUT" s then some "OUT"
    else some s

/-- normalizeHAN from part_002. -/
def normalizeHAN (v : JVal) : JVal :=
  if !jsTruthy v then .null
  else
    let s := jsLower (jsTrim (jsToString v))
    if startsW "h" s then .str "Home"
    else if startsW "a" s then .str "Away"
    else if startsW "n" s then .str "Neutral"
    else v

/-- Keep the maximal alphanumeric runs of a character list, in order.  This
realises the chain of regex replacements of toSnakeCase: runs of
non-alphanumeric characters become separators and outer separators trim. -/
def alnumTokensGo : List Char → List Char → List (List Char)
  | [], cur => if cur.isEmpty then [] else [cur.reverse]
  | c :: rest, cur =>
    if c.isAlpha || c.isDigit then alnumTokensGo rest (c :: cur)
    else if cur.isEmpty then alnumTokensGo rest []
    else cur.reverse :: alnumTokensGo rest []

/-- toSnakeCase from part_002 on a string: drop percent signs and parens,
replace non-alphanumeric runs by single separators, trim, lower-case, and
join with underscores. -/
def snakeStr (s : String) : String :=
  let cleaned := s.data.filter (fun c => c ≠ '%' ∧ c ≠ '(' ∧ c ≠ ')')
  String.intercalate "_" ((alnumTokensGo cleaned []).map (fun t => String.mk (t.map lcChar)))

/-- toSnakeCase from part_002: non-strings and the empty string are returned
unchanged. -/
def toSnakeCase (v : JVal) : JVal :=
  match v with
  | .str s => if s = "" then v else .str (snakeStr s)
  | other => other

/-- findSection from part_002: the exact top-level sections entry when truthy,
otherwise the mirrored raw.rawKey.data.sections entry when that object and its
entry are truthy, otherwise null. -/
def findSection (root : JVal) (label : String) (rawKey : String) : Except JErr JVal := do
  let s ← getProp root "sections"
  let sections := jsOr s (.obj [])
  let prim ← getProp sections label
  if jsTruthy prim then return prim
  let rawSections := jsGet root ["raw", rawKey, "data", "sections"] .null
  if jsTruthy rawSections then
    let m ← getProp rawSections label
    if jsTruthy m then return m
  return .null

/-- getTeamField from part_002: the value of the first key equal to the team
abbreviation up to case, or null.  It guards its own null cases and never
throws. -/
def getTeamField (rec : JVal) (teamAbbr : String) : JVal :=
  if !jsTruthy rec || teamAbbr == "" then .null
  else
    match rec with
    | .obj fs =>
      match fs.find? (fun p => jsUpper p.1 == jsUpper teamAbbr) with
      | some p => p.2
      | none => .null
    | _ => .null

/-- The open-high-low-last aggregate. -/
structure Range where
  «open» : Option ℚ
  high : Option ℚ
  low : Option ℚ
  last : Option ℚ
deriving DecidableEq

/-- The all-null aggregate every range starts from. -/
def emptyRange : Range := ⟨none, none, none, none⟩

/-- One row step of buildRangeFromRows in part_002: each matching label
unconditionally assigns the parsed value of its pair, so a later matching pair
overwrites an earlier one (and may overwrite with null).  The four sequential
assignments of the source touch pairwise-distinct fields and their conditions
read none of them, so the simultaneous record below is the same function. -/
def brStep (r : Range) (lab : Option String) (v : Option ℚ) : Range :=
  let m := fun sub => match lab with
    | some t => containsSub sub t
    | none => false
  ⟨if m "open" then v else r.«open», if m "high" then v else r.high,
   if m "low" then v else r.low, if m "last" then v else r.last⟩

/-- The label1/label2 coercion of buildRangeFromRows: a truthy label is
stringified and lower-cased, and an empty coercion is falsy again. -/
def brLabel (p : JVal) : Option String :=
  if jsTruthy p then
    let t := jsLower (jsToString p)
    if t = "" then none else some t
  else none

/-- The row loop of buildRangeFromRows; reading a property of a null row
throws, as in JavaScript. -/
def brGo : List JVal → Range → Except JErr Range
  | [], r => .ok r
  | rec :: rest, r => do
    let pl1 ← getProp rec "price_label_1"
    let pl2 ← getProp rec "price_label_2"
    let v1 := parseOdds (← getProp rec "price_1")
    let v2 := parseOdds (← getProp rec "price_2")
    let r := brStep r (brLabel pl1) v1
    let r := brStep r (brLabel pl2) v2
    brGo rest r

/-- buildRangeFromRows from part_002. -/
def buildRangeFromRows (rows : JVal) : Except JErr Range :=
  match asArr rows with
  | none => .ok emptyRange
  | some rs => brGo rs emptyRange

/-- The repeated guard sec and Array.isArray(sec.key) ? sec.key : [] used by
the section mappers of part_002. -/
def sectionArr (sec : JVal) (key : String) : List JVal :=
  if jsTruthy sec then (asArr (propOf sec key)).getD [] else []

/-- The home/away pair of a current value. -/
structure CurPair where
  home : Option ℚ
  away : Option ℚ
deriving DecidableEq

/-- One row of an extracted moneyline series. -/
structure MovePoint where
  timestamp : Option String
  label : JVal
  home : Option ℚ
  away : Option ℚ

/-- The moneylinemovement output section of part_002. -/
structure MLMove where
  current : CurPair
  range_home : Range
  range_away : Range
  history : List MovePoint

/-- Does this row match the case-insensitive current test of part_002
(the anchored regex is a full case-insensitive match)? -/
def isCurrentLabel (rawLabel : JVal) : Bool :=
  jsTruthy rawLabel && (jsLower (jsToString rawLabel) == "current")

/-- Is this row the marker row skipped by the history loop of part_002
(a truthy label containing the sentinel, case-insensitively)? -/
def isMarkerRow (rec : JVal) : Bool :=
  let lb := propOf rec "label"
  jsTruthy lb && containsSub "historic_line_movement" (jsLower (jsToString lb))

/-- The history loop of extractMoneyLineMovement in part_002: skip marker
rows, build the raw label by the time stamp / timestamp / label priority,
parse both team columns, drop rows with no value on either side, and let the
last kept row whose raw label is Current set the current pair. -/
def mlRowsGo (h a : String) (y : JVal) (yr : Int) :
    List JVal → List MovePoint → Option CurPair → Except JErr (List MovePoint × Option CurPair)
  | [], acc, cur => .ok (acc, cur)
  | rec :: rest, acc, cur => do
    let lb ← getProp rec "label"
    if jsTruthy lb && containsSub "historic_line_movement" (jsLower (jsToString lb)) then
      mlRowsGo h a y yr rest acc cur
    else
      let t1 ← getProp rec "time stamp"
      let t2 ← getProp rec "timestamp"
      let t3 ← getProp rec "label"
      let rawLabel := jsOr t1 (jsOr t2 (jsOr t3 .null))
      let ts := parseTimestampLabel rawLabel y yr
      let homeVal := parseOdds (getTeamField rec h)
      let awayVal := parseOdds (getTeamField rec a)
      if homeVal.isNone && awayVal.isNone then
        mlRowsGo h a y yr rest acc cur
      else
        let p : MovePoint := ⟨ts.timestamp, ts.label, homeVal, awayVal⟩
        let cur' := if isCurrentLabel rawLabel then some ⟨homeVal, awayVal⟩ else cur
        mlRowsGo h a y yr rest (acc ++ [p]) cur'

/-- The matchup-menu lookup shared by the three movement extractors: the exact
interpolated section key, with a fallback to the first section key starting
with the matchup-menu token (case-insensitively). -/
def matchupMenuOf (root : JVal) (h a : String) : Except JErr JVal := do
  let mm0 := jsGet root ["sections", "Matchup Menu: " ++ a ++ " @ " ++ h] .null
  if jsTruthy mm0 then return mm0
  let s ← getProp root "sections"
  let sections := jsOr s (.obj [])
  match (objKeys sections).find? (fun k => startsW "matchup menu" (jsLower k)) with
  | some k => return propOf sections k
  | none => return mm0

/-- The matchupMenu or Line Movement range computation of part_002: a range
of nulls unless the located value is truthy and carries an array under the
domain key. -/
def rangeFromSec (sec : JVal) (key : String) : Except JErr Range :=
  if jsTruthy sec then
    let mv := propOf sec key
    match asArr mv with
    | some _ => buildRangeFromRows mv
    | none => .ok emptyRange
  else .ok emptyRange

/-- extractMoneyLineMovement from part_002. -/
def extractMoneyLineMovement (root : JVal) (h a : String) (y : JVal) (yr : Int) :
    Except JErr MLMove := do
  let histSection ← findSection root "Money Line History" "moneylinemovement"
  let rawHistory := sectionArr histSection "moneylinemovement"
  let (history, currentFromHistory) ← mlRowsGo h a y yr rawHistory [] none
  let current : CurPair :=
    match currentFromHistory with
    | some c => c
    | none =>
      match history with
      | p :: _ => ⟨p.home, p.away⟩
      | [] => ⟨none, none⟩
  let matchupMenu ← matchupMenuOf root h a
  let lineMovementSec ← findSection root "Line Movement" "moneylinemovement"
  let range_home ← rangeFromSec matchupMenu "moneylinemovement"
  let range_away ← rangeFromSec lineMovementSec "moneylinemovement"
  return ⟨current, range_home, range_away, history⟩

/-- One row of the extracted spread series. -/
structure SpreadPoint where
  timestamp : Option String
  label : JVal
  spread : Option ℚ

/-- The pointspreadlinemovement output section of part_002. -/
structure SpreadMove where
  current_spread : Option ℚ
  range_spread : Range
  spread_history : List SpreadPoint

/-- The history loop of extractSpreadMovement in part_002: every row is kept;
the label priority is timestamp then label; the last Current row assigns the
current spread (a null spread there is indistinguishable from no assignment,
exactly as in JavaScript). -/
def spreadRowsGo (y : JVal) (yr : Int) :
    List JVal → List SpreadPoint → Option ℚ → Except JErr (List SpreadPoint × Option ℚ)
  | [], acc, cur => .ok (acc, cur)
  | rec :: rest, acc, cur => do
    let t1 ← getProp rec "timestamp"
    let t2 ← getProp rec "label"
    let label := jsOr t1 (jsOr t2 .null)
    let ts := parseTimestampLabel label y yr
    let spread := parseOdds (← getProp rec "spread")
    let cur' := if isCurrentLabel label then spread else cur
    spreadRowsGo y yr rest (acc ++ [⟨ts.timestamp, ts.label, spread⟩]) cur'

/-- extractSpreadMovement from part_002. -/
def extractSpreadMovement (root : JVal) (h a : String) (y : JVal) (yr : Int) :
    Except JErr SpreadMove := do
  let sec ← findSection root "Spread History" "pointspreadlinemovement"
  let rawHistory := sectionArr sec "pointspreadlinemovement"
  let (hist, cur) ← spreadRowsGo y yr rawHistory [] none
  let current_spread : Option ℚ :=
    match cur with
    | some q => some q
    | none =>
      match hist with
      | p :: _ => p.spread
      | [] => none
  let matchupMenu ← matchupMenuOf root h a
  let range_spread ← rangeFromSec matchupMenu "pointspreadlinemovement"
  return ⟨current_spread, range_spread, hist⟩

/-- One row of the extracted totals series. -/
structure TotalPoint where
  timestamp : Option String
  label : JVal
  total : Option ℚ

/-- The overunderlinemovement output section of part_002. -/
structure TotalsMove where
  current_total : Option ℚ
  range_total : Range
  totals_history : List TotalPoint

/-- The history loop of extractTotalsMovement in part_002; its label priority
is label then timestamp, and values go through parseNumberOrNull. -/
def totalsRowsGo (y : JVal) (yr : Int) :
    List JVal → List TotalPoint → Option ℚ → Except JErr (List TotalPoint × Option ℚ)
  | [], acc, cur => .ok (acc, cur)
  | rec :: rest, acc, cur => do
    let t1 ← getProp rec "label"
    let t2 ← getProp rec "timestamp"
    let label := jsOr t1 (jsOr t2 .null)
    let ts := parseTimestampLabel label y yr
    let total := parseNumberOrNull (← getProp rec "total")
    let cur' := if isCurrentLabel label then total else cur
    totalsRowsGo y yr rest (acc ++ [⟨ts.timestamp, ts.label, total⟩]) cur'

/-- extractTotalsMovement from part_002. -/
def extractTotalsMovement (root : JVal) (h a : String) (y : JVal) (yr : Int) :
    Except JErr TotalsMove := do
  let sec ← findSection root "Totals History" "overunderlinemovement"
  let rawHistory := sectionArr sec "overunderlinemovement"
  let (hist, cur) ← totalsRowsGo y yr rawHistory [] none
  let current_total : Option ℚ :=
    match cur with
    | some q => some q
    | none =>
      match hist with
      | p :: _ => p.total
      | [] => none
  let matchupMenu ← matchupMenuOf root h a
  let range_total ← rangeFromSec matchupMenu "overunderlinemovement"
  return ⟨current_total, range_total, hist⟩

/-- A record / home / away trend row. -/
structure TrendRow where
  record : JVal
  home : JVal
  away : JVal

/-- A model / pick prediction row. -/
structure PredRow where
  model : JVal
  pick : JVal

/-- The moneylineanalysis output section of part_002. -/
structure MoneylineAnalysis where
  money_line_predictions : List PredRow
  money_line_trends_last_season : List TrendRow

/-- The trend-row mapper of extractMoneylineAnalysis (lower-case record key
first). -/
def mlTrendRow (h a : String) (row : JVal) : Except JErr TrendRow := do
  let r1 ← getProp row "record"
  let r2 ← getProp row "Record"
  let hv ← getProp row h
  let hh ← getProp row "home"
  let av ← getProp row a
  let ah ← getProp row "away"
  return ⟨jsOr r1 (jsOr r2 .null), jsNullish hv (jsNullish hh .null), jsNullish av (jsNullish ah .null)⟩

/-- extractMoneylineAnalysis from part_002; the predictions list is always
empty. -/
def extractMoneylineAnalysis (root : JVal) (h a : String) : Except JErr MoneylineAnalysis := do
  let trendsSection ← findSection root "money line situational trends" "moneylineanalysis"
  let trends ← (sectionArr trendsSection "moneylineanalysis").mapM (mlTrendRow h a)
  return ⟨[], trends⟩

/-- The trend-row mapper used by the spread, totals and situational sections
(capitalised record key first). -/
def capTrendRow (h a : String) (row : JVal) : Except JErr TrendRow := do
  let r1 ← getProp row "Record"
  let r2 ← getProp row "record"
  let hv ← getProp row h
  let hh ← getProp row "home"
  let av ← getProp row a
  let ah ← getProp row "away"
  return ⟨jsOr r1 (jsOr r2 .null), jsNullish hv (jsNullish hh .null), jsNullish av (jsNullish ah .null)⟩

/-- The prediction-row mapper of the spread and totals analysis sections. -/
def predRow (row : JVal) : Except JErr PredRow := do
  let m1 ← getProp row "Model"
  let m2 ← getProp row "model"
  let p1 ← getProp row "Pick"
  let p2 ← getProp row "pick"
  return ⟨toSnakeCase (jsOr m1 (jsOr m2 (.str ""))), jsNullish p1 (jsNullish p2 .null)⟩

/-- The pointspreadanalysis output section of part_002. -/
structure PointspreadAnalysis where
  ats_predictions : List PredRow
  ats_situational_trends_last_season : List TrendRow

/-- extractPointspreadAnalysis from part_002. -/
def extractPointspreadAnalysis (root : JVal) (h a : String) : Except JErr PointspreadAnalysis := do
  let predsSection ← findSection root "ATS Predictions" "pointspreadanalysis"
  let preds ← (sectionArr predsSection "pointspreadanalysis").mapM predRow
  let trendsSection ← findSection root "ATS Situational Trends" "pointspreadanalysis"
  let trends ← (sectionArr trendsSection "pointspreadanalysis").mapM (capTrendRow h a)
  return ⟨preds, trends⟩

/-- The overunderanalysis output section of part_002. -/
structure OverUnderAnalysis where
  predictions : List PredRow
  trends_last_season : List TrendRow

/-- extractOverUnderAnalysis from part_002. -/
def extractOverUnderAnalysis (root : JVal) (h a : String) : Except JErr OverUnderAnalysis := do
  let predsSection ← findSection root "Over/Under Predictions" "overunderanalysis"
  let preds ← (sectionArr predsSection "overunderanalysis").mapM predRow
  let trendsSection ← findSection root "Over/Under Situational Trends" "overunderanalysis"
  let trends ← (sectionArr trendsSection "overunderanalysis").mapM (capTrendRow h a)
  return ⟨preds, trends⟩

/-- A game-log row of the dualgamelog section. -/
structure GameLogRow where
  week : JVal
  opponent : JVal
  rank : Option ℚ
  home_away_neutral : JVal
  score : JVal

/-- The dualgamelog output section of part_002. -/
structure DualGameLog where
  home_season_performance_last_season : List GameLogRow
  away_season_performance_last_season : List GameLogRow

/-- The row mapper of extractDualGameLog. -/
def gameLogRow (row : JVal) : Except JErr GameLogRow := do
  let w ← getProp row "week"
  let o ← getProp row "opponent"
  let rk ← getProp row "rank"
  let han ← getProp row "h a n"
  let sc ← getProp row "score"
  return ⟨jsOr w .null, jsOr o .null, parseNumberOrNull rk, normalizeHAN han, jsOr sc .null⟩

/-- The guarded per-guess game-log mapping of extractDualGameLog. -/
def gameLogOf (sections : JVal) (guess : Option String) : Except JErr (List GameLogRow) :=
  match guess with
  | none => .ok []
  | some k =>
    let sec := propOf sections k
    if jsTruthy sec then
      match asArr (propOf sec "dualgamelog") with
      | some rows => rows.mapM gameLogRow
      | none => .ok []
    else .ok []

/-- extractDualGameLog from part_002: the home and away sections are guessed
from hard-coded team-name tokens among the season performance keys, with the
first and second such key as fallbacks. -/
def extractDualGameLog (root : JVal) : Except JErr DualGameLog := do
  let s ← getProp root "sections"
  let sections := jsOr s (.obj [])
  let seasonKeys := (objKeys sections).filter (fun k => containsSub "season performance" (jsLower k))
  let homeKeyGuess :=
    match seasonKeys.find? (fun k => containsSub "buffalo" (jsLower k)) with
    | some k => some k
    | none => seasonKeys.get? 0
  let awayKeyGuess :=
    match seasonKeys.find? (fun k => containsSub "tampa bay" (jsLower k)) with
    | some k => some k
    | none => seasonKeys.get? 1
  let hrows ← gameLogOf sections homeKeyGuess
  let arows ← gameLogOf sections awayKeyGuess
  return ⟨hrows, arows⟩

/-- A stat / home / away numeric row. -/
structure StatRowN where
  stat : JVal
  home : Option ℚ
  away : Option ℚ

/-- The efficiencystats output section of part_002. -/
structure EfficiencyStats where
  key_offensive_stats_last_season : List StatRowN
  key_defensive_stats_last_season : List StatRowN
  home_vs_away_offensive_efficiency_last_season : List StatRowN
  home_vs_away_defensive_efficiency_last_season : List StatRowN

/-- The key-stats row mapper of extractEfficiencyStats: abbreviation column
first, then the hard-coded buf/tb columns, then home/away. -/
def keyStatRow (h a : String) (row : JVal) : Except JErr StatRowN := do
  let st ← getProp row "stat"
  let hv ← getProp row h
  let hb ← getProp row "buf"
  let hh ← getProp row "home"
  let av ← getProp row a
  let ab ← getProp row "tb"
  let ah ← getProp row "away"
  return ⟨toSnakeCase (jsOr st (.str "")),
    parseNumberOrNull (jsNullish hv (jsNullish hb hh)),
    parseNumberOrNull (jsNullish av (jsNullish ab ah))⟩

/-- The efficiency row mapper of extractEfficiencyStats: a string containing a
percent sign goes through parsePercent, everything else through
parseNumberOrNull; the columns are the hard-coded buf and tb keys. -/
def effRow (row : JVal) : Except JErr StatRowN := do
  let st ← getProp row "stat"
  let b ← getProp row "buf"
  let t ← getProp row "tb"
  let homeV := match b with
    | .str sb => if containsSub "%" sb then parsePercent b else parseNumberOrNull b
    | _ => parseNumberOrNull b
  let awayV := match t with
    | .str st2 => if containsSub "%" st2 then parsePercent t else parseNumberOrNull t
    | _ => parseNumberOrNull t
  return ⟨toSnakeCase (jsOr st (.str "")), homeV, awayV⟩

/-- extractEfficiencyStats from part_002 (with its hard-coded section
labels). -/
def extractEfficiencyStats (root : JVal) (h a : String) : Except JErr EfficiencyStats := do
  let keyOff ← findSection root "key offensive stats" "efficiencystats"
  let keyDefs ← findSection root "key defensive stats" "efficiencystats"
  let offEff ← findSection root "tampa bayvsbuffalo offensive efficiency" "efficiencystats"
  let defEff ← findSection root "tampa bayvsbuffalo defensive efficiency" "efficiencystats"
  let ko ← (sectionArr keyOff "efficiencystats").mapM (keyStatRow h a)
  let kd ← (sectionArr keyDefs "efficiencystats").mapM (keyStatRow h a)
  let oe ← (sectionArr offEff "efficiencystats").mapM effRow
  let de ← (sectionArr defEff "efficiencystats").mapM effRow
  return ⟨ko, kd, oe, de⟩

/-- The overview output section of part_002. -/
structure Overview where
  offensive_stat_comparison_last_season : List StatRowN
  defensive_stat_comparison_last_season : List StatRowN

/-- The row mapper of extractOverview (capitalised Stat key first). -/
def overviewRow (h a : String) (row : JVal) : Except JErr StatRowN := do
  let s1 ← getProp row "Stat"
  let s2 ← getProp row "stat"
  let hv ← getProp row h
  let hb ← getProp row "buf"
  let hh ← getProp row "home"
  let av ← getProp row a
  let ab ← getProp row "tb"
  let ah ← getProp row "away"
  return ⟨toSnakeCase (jsOr s1 (jsOr s2 (.str ""))),
    parseNumberOrNull (jsNullish hv (jsNullish hb hh)),
    parseNumberOrNull (jsNullish av (jsNullish ab ah))⟩

/-- extractOverview from part_002. -/
def extractOverview (root : JVal) (h a : String) : Except JErr Overview := do
  let offComp ← findSection root "Offensive Stat Comparison" "overview"
  let defComp ← findSection root "Defensive Stat Comparison" "overview"
  let o ← (sectionArr offComp "overview").mapM (overviewRow h a)
  let d ← (sectionArr defComp "overview").mapM (overviewRow h a)
  return ⟨o, d⟩

/-- One injury row. -/
structure InjuryRow where
  name : JVal
  pos : JVal
  updated : JVal
  injury : JVal
  status : Option String
  details : JVal

/-- The injuryreport output section of part_002. -/
structure InjuryReport where
  home_injuries : List InjuryRow
  away_injuries : List InjuryRow

/-- The row mapper of extractInjuries. -/
def injuryRow (row : JVal) : Except JErr InjuryRow := do
  let n ← getProp row "name"
  let p ← getProp row "pos"
  let u ← getProp row "updated"
  let i ← getProp row "injury"
  let st ← getProp row "status"
  let d ← getProp row "details"
  return ⟨jsOr n .null, jsOr p .null, jsOr u .null, jsOr i .null,
    normalizeInjuryStatus st, jsOr d .null⟩

/-- The mapArr helper of extractInjuries applied to sec and sec.injuryreport. -/
def injuriesOf (sec : JVal) : Except JErr (List InjuryRow) :=
  let arr := if jsTruthy sec then propOf sec "injuryreport" else sec
  match asArr arr with
  | some rows => rows.mapM injuryRow
  | none => .ok []

/-- extractInjuries from part_002 (hard-coded team section labels). -/
def extractInjuries (root : JVal) : Except JErr InjuryReport := do
  let secHome ← findSection root "buffalo injuries" "injuryreport"
  let secAway ← findSection root "tampa bay injuries" "injuryreport"
  let hi ← injuriesOf secHome
  let ai ← injuriesOf secAway
  return ⟨hi, ai⟩

/-- One head-to-head row. -/
structure H2HRow where
  date : JVal
  winner : JVal
  winner_home_away_neutral : JVal
  score : JVal
  ats_cover : JVal
  ou_result : JVal

/-- The headtohead output section of part_002. -/
structure HeadToHead where
  head_to_head_since_1985_season : List H2HRow

/-- The row mapper of extractHeadToHead. -/
def h2hRow (row : JVal) : Except JErr H2HRow := do
  let d ← getProp row "date"
  let w ← getProp row "winner"
  let han1 ← getProp row "h a n"
  let han2 ← getProp row "han"
  let sc ← getProp row "score"
  let a1 ← getProp row "ats"
  let a2 ← getProp row "ats_cover"
  let o1 ← getProp row "ou"
  let o2 ← getProp row "ou_result"
  return ⟨jsOr d .null, jsOr w .null, normalizeHAN (jsOr han1 han2), jsOr sc .null,
    jsOr a1 (jsOr a2 .null), jsOr o1 (jsOr o2 .null)⟩

/-- extractHeadToHead from part_002. -/
def extractHeadToHead (root : JVal) : Except JErr HeadToHead := do
  let sec ← findSection root "head to head since 1985 season" "headtohead"
  let rows ← (sectionArr sec "headtohead").mapM h2hRow
  return ⟨rows⟩

/-- One comparison-table row of the powerratings section. -/
structure PowerCompRow where
  rating : JVal
  home : JVal
  away : JVal

/-- One team-rankings row of the powerratings section. -/
structure PowerRow where
  rating : JVal
  value : JVal
  rank : Option String
  conf_rank : Option String

/-- The powerratings output section of part_002. -/
structure PowerRatings where
  comparison_table : List PowerCompRow
  home_rankings : List PowerRow
  away_rankings : List PowerRow

/-- Remove the first occurrence of a character, as the single-replacement
String.prototype.replace of a plain-string pattern does. -/
def removeFirstChar (c : Char) : List Char → List Char
  | [] => []
  | x :: xs => if x = c then xs else x :: removeFirstChar c xs

/-- The comparison-row mapper of extractPowerRatings: the TB-family column is
parsed into the away slot and the BUF-family column into the home slot. -/
def powerCompRow (row : JVal) : Except JErr PowerCompRow := do
  let t1 ← getProp row "TB"
  let t2 ← getProp row "Tb"
  let t3 ← getProp row "tb"
  let t4 ← getProp row "home"
  let parsed := parsePercentRank (jsOr t1 (jsOr t2 (jsOr t3 t4)))
  let b1 ← getProp row "BUF"
  let b2 ← getProp row "Buf"
  let b3 ← getProp row "buf"
  let b4 ← getProp row "away"
  let parsed2 := parsePercentRank (jsOr b1 (jsOr b2 (jsOr b3 b4)))
  let r1 ← getProp row "Rating"
  let r2 ← getProp row "rating"
  return ⟨toSnakeCase (jsOr r1 (jsOr r2 (.str ""))),
    (match parsed2 with | some p => p.value | none => .null),
    (match parsed with | some p => p.value | none => .null)⟩

/-- The normalizePowerRows row mapper of extractPowerRatings. -/
def powerRow (row : JVal) : Except JErr PowerRow := do
  let r1 ← getProp row "Rating"
  let r2 ← getProp row "rating"
  let v1 ← getProp row "Value"
  let v2 ← getProp row "value"
  let rk ← getProp row "Rank"
  let cr ← getProp row "Conf Rank"
  return ⟨toSnakeCase (jsOr r1 (jsOr r2 (.str ""))), jsOr v1 (jsOr v2 .null),
    (if jsTruthy rk then some (String.mk (removeFirstChar '#' (jsToString rk).data)) else none),
    (if jsTruthy cr then some (String.mk (removeFirstChar '#' (jsToString cr).data)) else none)⟩

/-- The guarded normalizePowerRows application to sec and sec.powerratings. -/
def powerRowsOf (sec : JVal) : Except JErr (List PowerRow) :=
  let arr := if jsTruthy sec then propOf sec "powerratings" else sec
  match asArr arr with
  | some rows => rows.mapM powerRow
  | none => .ok []

/-- extractPowerRatings from part_002. -/
def extractPowerRatings (root : JVal) : Except JErr PowerRatings := do
  let comparisonSection ← findSection root "comparison_table" "powerratings"
  let teamASection ← findSection root "teamA_rankings" "powerratings"
  let teamBSection ← findSection root "teamB_rankings" "powerratings"
  let comp ← (sectionArr comparisonSection "powerratings").mapM powerCompRow
  let hr ← powerRowsOf teamASection
  let ar ← powerRowsOf teamBSection
  return ⟨comp, hr, ar⟩

/-- The situationaltrends output section of part_002. -/
structure SituationalTrends where
  win_loss_team_trends : List TrendRow
  ats_team_trends : List TrendRow
  over_under_team_trends : List TrendRow

/-- extractSituationalTrends from part_002. -/
def extractSituationalTrends (root : JVal) (h a : String) : Except JErr SituationalTrends := do
  let winLoss ← findSection root "Win-Loss Team Trends" "situationaltrends"
  let ats ← findSection root "ATS Team Trends" "situationaltrends"
  let ou ← findSection root "Over/Under Team Trends" "situationaltrends"
  let wl ← (sectionArr winLoss "situationaltrends").mapM (capTrendRow h a)
  let at2 ← (sectionArr ats "situationaltrends").mapM (capTrendRow h a)
  let ou2 ← (sectionArr ou "situationaltrends").mapM (capTrendRow h a)
  return ⟨wl, at2, ou2⟩

/-- One stat-splits row. -/
structure SplitRow where
  split_stat : JVal
  season_home : Option ℚ
  season_away : Option ℚ
  last3_home : Option ℚ
  last3_away : Option ℚ
  home_vs_home_home : Option ℚ
  away_vs_home_away : Option ℚ

/-- The statsplits output section of part_002. -/
structure StatSplits where
  scoring_and_yardage_last_season : List SplitRow
  offensive_efficiency_last_season : List SplitRow
  defensive_efficiency_last_season : List SplitRow
  turnovers_penalties_top_last_season : List SplitRow

/-- The row mapper of extractStatSplits, with its interpolated column names
and its deliberately swapped away-vs-home perspective. -/
def splitRow (h a : String) (row : JVal) : Except JErr SplitRow := do
  let s1 ← getProp row "Split | Stat"
  let s2 ← getProp row "stat"
  let sh ← getProp row ("Season | " ++ h)
  let sa ← getProp row ("Season | " ++ a)
  let lh ← getProp row ("Last 3 Games | " ++ h)
  let la ← getProp row ("Last 3 Games | " ++ a)
  let vh ← getProp row ("Away vs. Home | " ++ a)
  let va ← getProp row ("Away vs. Home | " ++ h)
  return ⟨toSnakeCase (jsOr s1 (jsOr s2 (.str ""))),
    parseNumberOrNull sh, parseNumberOrNull sa, parseNumberOrNull lh,
    parseNumberOrNull la, parseNumberOrNull vh, parseNumberOrNull va⟩

/-- extractStatSplits from part_002. -/
def extractStatSplits (root : JVal) (h a : String) : Except JErr StatSplits := do
  let scoring ← findSection root "Scoring & Yardage" "statsplits"
  let off ← findSection root "Offensive Efficiency" "statsplits"
  let def_ ← findSection root "Defensive Efficiency" "statsplits"
  let top ← findSection root "Turnovers, Penalties & TOP" "statsplits"
  let s ← (sectionArr scoring "statsplits").mapM (splitRow h a)
  let o ← (sectionArr off "statsplits").mapM (splitRow h a)
  let d ← (sectionArr def_ "statsplits").mapM (splitRow h a)
  let t ← (sectionArr top "statsplits").mapM (splitRow h a)
  return ⟨s, o, d, t⟩

/-- One matchup-stats row: value-with-rank pairs for both sides. -/
structure MatchupRow where
  stat : JVal
  home : Option PercentRank
  away_opponent : Option PercentRank

/-- The home-side matchup row mapper (value rank 1 is the home column). -/
def matchupRowH (row : JVal) : Except JErr MatchupRow := do
  let a1 ← getProp row "tb"
  let a2 ← getProp row "buf"
  let a3 ← getProp row "stat"
  let v1 ← getProp row "value rank 1"
  let v0 ← getProp row "value rank"
  return ⟨toSnakeCase (jsOr a1 (jsOr a2 (jsOr a3 (.str "")))),
    parsePercentRank v1, parsePercentRank v0⟩

/-- The away-side matchup row mapper (value rank is the home column). -/
def matchupRowA (row : JVal) : Except JErr MatchupRow := do
  let a1 ← getProp row "buf"
  let a2 ← getProp row "tb"
  let a3 ← getProp row "stat"
  let v0 ← getProp row "value rank"
  let v1 ← getProp row "value rank 1"
  return ⟨toSnakeCase (jsOr a1 (jsOr a2 (jsOr a3 (.str "")))),
    parsePercentRank v0, parsePercentRank v1⟩

/-- One try-guarded mapMatchup call of extractMatchupStats: a thrown row error
is caught, leaving the keys assigned so far — the home key survives when only
the away mapping throws. -/
def runMatchupGroup (sections : JVal) (lh la kh ka : String)
    (out : List (String × List MatchupRow)) : List (String × List MatchupRow) :=
  let arrH := sectionArr (propOf sections lh) "matchupstats"
  let arrA := sectionArr (propOf sections la) "matchupstats"
  match arrH.mapM matchupRowH with
  | .error _ => out
  | .ok hs =>
    let out := out ++ [(kh, hs)]
    match arrA.mapM matchupRowA with
    | .error _ => out
    | .ok asRows => out ++ [(ka, asRows)]

/-- extractMatchupStats from part_002: seven hard-coded section pairs, each
wrapped in its own try/catch. -/
def extractMatchupStats (root : JVal) : Except JErr (List (String × List MatchupRow)) := do
  let s ← getProp root "sections"
  let sections := jsOr s (.obj [])
  let out := runMatchupGroup sections "tampa bay vs buffalo overall" "buffalo vs tampa bay overall"
    "home_vs_away_overall_last_season" "away_vs_home_overall_last_season" []
  let out := runMatchupGroup sections "tampa bay vs buffalo rushing" "buffalo vs tampa bay rushing"
    "home_vs_away_rushing_last_season" "away_vs_home_rushing_last_season" out
  let out := runMatchupGroup sections "tampa bay vs buffalo passing" "buffalo vs tampa bay passing"
    "home_vs_away_passing_last_season" "away_vs_home_passing_last_season" out
  let out := runMatchupGroup sections "tampa bay vs buffalo kicking" "buffalo vs tampa bay kicking"
    "home_vs_away_kicking_last_season" "away_vs_home_kicking_last_season" out
  let out := runMatchupGroup sections "tampa bay vs buffalo turnovers" "buffalo vs tampa bay turnovers"
    "home_vs_away_turnovers_last_season" "away_vs_home_turnovers_last_season" out
  let out := runMatchupGroup sections "tampa bay vs buffalo penalties" "buffalo vs tampa bay penalties"
    "home_vs_away_penalties_last_season" "away_vs_home_penalties_last_season" out
  let out := runMatchupGroup sections "tampa bay vs buffalo other" "buffalo vs tampa bay other"
    "home_vs_away_other_last_season" "away_vs_home_other_last_season" out
  return out

/-- The similargamesanalysis output section of part_002; the game lists are
passed through untouched. -/
structure SimilarGames where
  matchup_key : JVal
  home_similar_games : List JVal
  away_similar_games : List JVal

/-- extractSimilarGames from part_002 (hard-coded team season-performance
labels; the buffalo section feeds the home list). -/
def extractSimilarGames (root : JVal) : Except JErr SimilarGames := do
  let s ← getProp root "sections"
  let sections := jsOr s (.obj [])
  let tb := propOf sections "tampa bay season performance"
  let buf := propOf sections "buffalo season performance"
  let m ← getProp root "meta"
  let matchupKey := if jsTruthy m ∧ jsTruthy (propOf m "matchupTitle") then propOf m "matchupTitle" else .null
  let hsim := if jsTruthy buf then (asArr (propOf buf "similargamesanalysis")).getD [] else []
  let asim := if jsTruthy tb then (asArr (propOf tb "similargamesanalysis")).getD [] else []
  return ⟨matchupKey, hsim, asim⟩

/-- The inner travel record of part_002. -/
structure TravelInner where
  home_team : String
  away_team : String
  away_team_travel_miles : Option ℚ

/-- The travelanalysis output section of part_002. -/
structure Travel where
  travel_analysis : TravelInner

/-- extractTravelAnalysis from part_002. -/
def extractTravelAnalysis (root : JVal) (h a : String) : Except JErr Travel := do
  let sec ← findSection root "travel_analysis" "travelanalysis"
  let o :=
    if jsTruthy sec then
      let t := propOf sec "travelanalysis"
      if jsTruthy t then t else .obj []
    else .obj []
  return ⟨⟨h, a, parseNumberOrNull (jsOr (propOf o "away_team_travel_miles") (propOf o "away_miles"))⟩⟩

/-- The meta output section of part_002. -/
structure Meta where
  league : String
  season : JVal
  matchup_id : JVal
  home_team : String
  away_team : String
  generated_at : String

/-- extractMeta from part_002; nowIso models the new Date().toISOString()
read. -/
def extractMeta (root : JVal) (h a : String) (y : JVal) (nowIso : String) : Except JErr Meta := do
  let m ← getProp root "meta"
  let baseMeta := jsOr m (.obj [])
  return ⟨"NFL", jsOr y .null, jsOr (propOf baseMeta "matchupId") .null, h, a, nowIso⟩

/-- The canonical v1 document: the fixed eighteen top-level keys of
convertCompiledNFLObject, in the order of its return literal. -/
structure Compiled where
  meta : Meta
  dualgamelog : DualGameLog
  efficiencystats : EfficiencyStats
  headtohead : HeadToHead
  injuryreport : InjuryReport
  matchupstats : List (String × List MatchupRow)
  moneylineanalysis : MoneylineAnalysis
  moneylinemovement : MLMove
  overunderanalysis : OverUnderAnalysis
  overunderlinemovement : TotalsMove
  overview : Overview
  pointspreadanalysis : PointspreadAnalysis
  pointspreadlinemovement : SpreadMove
  powerratings : PowerRatings
  similargamesanalysis : SimilarGames
  situationaltrends : SituationalTrends
  statsplits : StatSplits
  travelanalysis : Travel

/-- The sixteen extractor results computed after the meta block by
convertCompiledNFLObject, sequenced in its source order (lines 935 through
953 of part_002). -/
structure Rest where
  moneylinemovement : MLMove
  pointspreadlinemovement : SpreadMove
  overunderlinemovement : TotalsMove
  moneylineanalysis : MoneylineAnalysis
  pointspreadanalysis : PointspreadAnalysis
  overunderanalysis : OverUnderAnalysis
  dualgamelog : DualGameLog
  efficiencystats : EfficiencyStats
  overview : Overview
  injuryreport : InjuryReport
  headtohead : HeadToHead
  powerratings : PowerRatings
  situationaltrends : SituationalTrends
  statsplits : StatSplits
  matchupstats : List (String × List MatchupRow)
  similargamesanalysis : SimilarGames
  travelanalysis : Travel

/-- All extractors of convertCompiledNFLObject except extractMeta, run in
source order. -/
def restSections (input : JVal) (h a : String) (y : JVal) (yr : Int) : Except JErr Rest := do
  let mlm ← extractMoneyLineMovement input h a y yr
  let psm ← extractSpreadMovement input h a y yr
  let oum ← extractTotalsMovement input h a y yr
  let mla ← extractMoneylineAnalysis input h a
  let psa ← extractPointspreadAnalysis input h a
  let oua ← extractOverUnderAnalysis input h a
  let dgl ← extractDualGameLog input
  let eff ← extractEfficiencyStats input h a
  let ovw ← extractOverview input h a
  let inj ← extractInjuries input
  let h2h ← extractHeadToHead input
  let pwr ← extractPowerRatings input
  let sit ← extractSituationalTrends input h a
  let spl ← extractStatSplits input h a
  let mst ← extractMatchupStats input
  let sim ← extractSimilarGames input
  let trv ← extractTravelAnalysis input h a
  return ⟨mlm, psm, oum, mla, psa, oua, dgl, eff, ovw, inj, h2h, pwr, sit, spl, mst, sim, trv⟩

/-- convertCompiledNFLObject from part_002: extractMeta first, then the other
extractors, assembled into the fixed eighteen-key document.  nowIso and yr
model the two wall-clock reads. -/
def convertCompiledNFLObject (input : JVal) (h a : String) (y : JVal) (nowIso : String)
    (yr : Int) : Except JErr Compiled := do
  let meta ← extractMeta input h a y nowIso
  let r ← restSections input h a y yr
  return ⟨meta, r.dualgamelog, r.efficiencystats, r.headtohead, r.injuryreport, r.matchupstats,
    r.moneylineanalysis, r.moneylinemovement, r.overunderanalysis, r.overunderlinemovement,
    r.overview, r.pointspreadanalysis, r.pointspreadlinemovement, r.powerratings,
    r.similargamesanalysis, r.situationaltrends, r.statsplits, r.travelanalysis⟩

/-- The usage check of main in part_002: any missing or empty positional
argument (the empty string models a missing argv entry) aborts with a usage
error before the converter runs. -/
def mainUsageError (inputPath outputPath homeAbbr awayAbbr : String) : Bool :=
  (inputPath == "") || (outputPath == "") || (homeAbbr == "") || (awayAbbr == "")

namespace Docs

/-- parseMoney from docs/scripts/convert-compiled-nfl.js: numbers pass
through; strings drop all whitespace and go through parseInt base ten;
everything else is null. -/
def parseMoney (v : JVal) : Option ℚ :=
  match v with
  | .num q => some q
  | .str s => (jsParseInt (s.data.filter (fun c => !isJsWS c))).map (fun i => (i : ℚ))
  | _ => none

/-- monthToNum from the docs script: exact capitalised three-letter keys. -/
def monthToNum (m : String) : Option Nat :=
  [("Jan", 1), ("Feb", 2), ("Mar", 3), ("Apr", 4), ("May", 5), ("Jun", 6),
   ("Jul", 7), ("Aug", 8), ("Sep", 9), ("Oct", 10), ("Nov", 11), ("Dec", 12)].findSome?
    (fun p => if p.1 = m then some p.2 else none)

/-- Days from 1970-01-01 of a proleptic-Gregorian date (the civil-from-days
algorithm used by every Date implementation). -/
def daysFromCivil (y m d : Int) : Int :=
  let y2 := y - (if m ≤ 2 then 1 else 0)
  let era := y2.fdiv 400
  let yoe := y2 - era * 400
  let doy := (153 * (m + (if m > 2 then -3 else 9)) + 2).fdiv 5 + d - 1
  let doe := yoe * 365 + yoe.fdiv 4 - yoe.fdiv 100 + doy
  era * 146097 + doe - 719468

/-- The inverse conversion: a day count back to year, month, day. -/
def civilFromDays (z0 : Int) : Int × Int × Int :=
  let z := z0 + 719468
  let era := z.fdiv 146097
  let doe := z - era * 146097
  let yoe := (doe - doe.fdiv 1460 + doe.fdiv 36524 - doe.fdiv 146096).fdiv 365
  let y := yoe + era * 400
  let doy := doe - (365 * yoe + yoe.fdiv 4 - yoe.fdiv 100)
  let mp := (5 * doy + 2).fdiv 153
  let d := doy - (153 * mp + 2).fdiv 5 + 1
  let m := mp + (if mp < 10 then 3 else -9)
  (y + (if m ≤ 2 then 1 else 0), m, d)

/-- Left-pad a rendered component with zeros. -/
def padN (n : Nat) (s : String) : String :=
  if s.length < n then String.mk (List.replicate (n - s.length) '0') ++ s else s

/-- new Date(Date.UTC(year, monIdx, day, hh, mi, 0)).toISOString(): the UTC
constructor normalises out-of-range components (including the two-digit-year
rule mapping 0 through 99 to 1900 onward) and the ISO rendering carries
milliseconds. -/
def dateUTCtoISO (year monIdx day hh mi : Int) : String :=
  let year := if 0 ≤ year ∧ year ≤ 99 then 1900 + year else year
  let tm := year * 12 + monIdx
  let y := tm.fdiv 12
  let m := tm - 12 * y + 1
  let minutes := (daysFromCivil y m 1 + (day - 1)) * 1440 + hh * 60 + mi
  let dd := minutes.fdiv 1440
  let rem := minutes - dd * 1440
  let (yy, mm2, d2) := civilFromDays dd
  padN 4 (toString yy) ++ "-" ++ padN 2 (toString mm2) ++ "-" ++ padN 2 (toString d2) ++ "T" ++
    padN 2 (toString (rem.fdiv 60)) ++ ":" ++ padN 2 (toString (rem % 60)) ++ ":00.000Z"

/-- Scan optional whitespace then a case-sensitive AM or PM ending the
string (the docs grammars carry no ignore-case flag); true means PM. -/
def scanAmPmCS (l : List Char) : Option Bool :=
  match l.dropWhile isJsWS with
  | ['A', 'M'] => some false
  | ['P', 'M'] => some true
  | _ => none

/-- The month-name grammar of the docs parseToISO: like the part_002 one but
with a case-sensitive AM/PM marker. -/
def tsShapeMonCS (l : List Char) : Option (String × Nat × Nat × Nat × Bool) :=
  match scanAlpha3 l with
  | none => none
  | some (mon, r1) =>
    match scanWsPlus r1 with
    | none => none
    | some r2 =>
      match scanDigits12 r2 with
      | none => none
      | some (dd, r3) =>
        match scanWsPlus r3 with
        | none => none
        | some r4 =>
          match scanDigits12 r4 with
          | none => none
          | some (hh, r5) =>
            match r5 with
            | ':' :: r6 =>
              match scanDigits2 r6 with
              | none => none
              | some (mi, r7) =>
                match scanAmPmCS r7 with
                | none => none
                | some pm => some (mon, dd, hh, mi, pm)
            | _ => none

/-- The slash grammar of the docs parseToISO: exactly two digits in every
numeric slot and a case-sensitive AM/PM marker. -/
def tsShapeSlashCS (l : List Char) : Option (Nat × Nat × Nat × Nat × Bool) :=
  match scanDigits2 l with
  | none => none
  | some (mm, r1) =>
    match r1 with
    | '/' :: r2 =>
      match scanDigits2 r2 with
      | none => none
      | some (dd, r3) =>
        match scanWsPlus r3 with
        | none => none
        | some r4 =>
          match scanDigits2 r4 with
          | none => none
          | some (hh, r5) =>
            match r5 with
            | ':' :: r6 =>
              match scanDigits2 r6 with
              | none => none
              | some (mi, r7) =>
                match scanAmPmCS r7 with
                | none => none
                | some pm => some (mm, dd, hh, mi, pm)
            | _ => none
    | _ => none

/-- Does the string start with an ISO date prefix (four digits, dash, two
digits, dash, two digits, T)? -/
def isoDatePre (l : List Char) : Bool :=
  match l with
  | a :: b :: c :: d :: '-' :: e :: f :: '-' :: g :: h :: 'T' :: _ =>
    a.isDigit && b.isDigit && c.isDigit && d.isDigit && e.isDigit && f.isDigit &&
      g.isDigit && h.isDigit
  | _ => false

/-- The twelve-hour to twenty-four-hour rule of the docs parseToISO. -/
def to24 (hh : Nat) (pm : Bool) : Nat :=
  if pm ∧ hh ≠ 12 then hh + 12 else if !pm ∧ hh = 12 then 0 else hh

/-- parseToISO from the docs script.  The seasonYear argument arrives as the
raw argv value, so it is a JVal and goes through parseInt; clockYear models
the getUTCFullYear fallback used when it is missing, zero or unparseable. -/
def parseToISO (label : JVal) (seasonYear : JVal) (clockYear : Int) : Option String :=
  match label with
  | .str s =>
    if s = "" then none
    else if isoDatePre s.data then some s
    else
      let year :=
        match jsParseIntOf seasonYear with
        | some y => if y = 0 then clockYear else y
        | none => clockYear
      match tsShapeMonCS s.data with
      | some (mon, dd, hh, mi, pm) =>
        some (dateUTCtoISO year ((monthToNum mon).getD 0 - 1) dd (to24 hh pm) mi)
      | none =>
        match tsShapeSlashCS s.data with
        | some (mm, dd, hh, mi, pm) =>
          some (dateUTCtoISO year (mm - 1) dd (to24 hh pm) mi)
        | none => none
  | _ => none

/-- The chosen column pair of detectTeamKeys. -/
structure TeamKeys where
  homeKey : Option String
  awayKey : Option String
deriving DecidableEq

/-- The non-reserved keys of a row: Object.keys(rec or empty) without the
exact reserved names time stamp, timestamp and label. -/
def teamCandidateKeys (rec : JVal) : List String :=
  (objKeys (jsOr rec (.obj []))).filter
    (fun k => k ≠ "time stamp" ∧ k ≠ "timestamp" ∧ k ≠ "label")

/-- detectTeamKeys from the docs script: the preferred abbreviations only
when both literally (case-sensitively) occur among the candidate keys of the
row, otherwise the first candidate as away and the second as home, otherwise
null keys. -/
def detectTeamKeys (rec : JVal) (ph pa : String) : TeamKeys :=
  let keys := teamCandidateKeys rec
  if ph ≠ "" ∧ keys.contains ph ∧ pa ≠ "" ∧ keys.contains pa then ⟨some ph, some pa⟩
  else if keys.length ≥ 2 then ⟨keys.get? 1, keys.get? 0⟩
  else ⟨none, none⟩

/-- Reading rec with a possibly-null key: JavaScript coerces a null property
name to the string "null". -/
def propOfKey (rec : JVal) (k : Option String) : JVal :=
  propOf rec (k.getD "null")

/-- One extracted point and its construction from a row under a fixed column
binding, exactly as the loop body of extractMoneyLineHistory builds it: a row
whose two bound columns both parse to null is dropped. -/
def pointOfRow (ks : TeamKeys) (y : JVal) (yr : Int) (rec : JVal) : Option MovePoint :=
  let label := jsNullish (propOf rec "time stamp")
    (jsNullish (propOf rec "timestamp") (jsNullish (propOf rec "label") (.str "")))
  let timestamp := parseToISO label y yr
  let home := parseMoney (propOfKey rec ks.homeKey)
  let away := parseMoney (propOfKey rec ks.awayKey)
  if home.isNone && away.isNone then none
  else some ⟨timestamp, jsOr label .null, home, away⟩

/-- The row loop of extractMoneyLineHistory: the column binding is taken from
detectTeamKeys on the first row (the assignment runs once because the result
object is always truthy) and reused unchanged for every row. -/
def mlhGo (ph pa : String) (y : JVal) (yr : Int) :
    List JVal → Option TeamKeys → List MovePoint → Except JErr (List MovePoint)
  | [], _, acc => .ok acc
  | rec :: rest, chosen, acc => do
    let ks := match chosen with
      | some k => k
      | none => detectTeamKeys rec ph pa
    let t1 ← getProp rec "time stamp"
    let t2 ← getProp rec "timestamp"
    let t3 ← getProp rec "label"
    let label := jsNullish t1 (jsNullish t2 (jsNullish t3 (.str "")))
    let timestamp := parseToISO label y yr
    let home := parseMoney (propOfKey rec ks.homeKey)
    let away := parseMoney (propOfKey rec ks.awayKey)
    if home.isNone && away.isNone then mlhGo ph pa y yr rest (some ks) acc
    else mlhGo ph pa y yr rest (some ks) (acc ++ [⟨timestamp, jsOr label .null, home, away⟩])

/-- extractMoneyLineHistory from the docs script. -/
def extractMoneyLineHistory (arr : JVal) (ph pa : String) (y : JVal) (yr : Int) :
    Except JErr (List MovePoint) :=
  match asArr arr with
  | none => .ok []
  | some rows => mlhGo ph pa y yr rows none []

/-- The numeric coercion of setIfLabel in the docs reduceRange: strings go
through parseMoney, numbers pass, anything else is skipped. -/
def rrVal : JVal → Option ℚ
  | .str s => parseMoney (.str s)
  | .num q => some q
  | _ => none

/-- The label coercion of setIfLabel: String(label or empty) lower-cased. -/
def rrLabel (label : JVal) : String :=
  jsLower (jsToString (jsOr label (.str "")))

/-- setIfLabel from the docs reduceRange: each bucket is assigned only while
still null — the first matching numeric pair wins.  The four sequential
guarded assignments of the source touch pairwise-distinct fields and each
condition reads only its own field, so the simultaneous record below is the
same function. -/
def setIfLabel (r : Range) (label value : JVal) : Range :=
  match rrVal value with
  | none => r
  | some q =>
    let L := rrLabel label
    ⟨if containsSub "open" L ∧ r.«open» = none then some q else r.«open»,
     if containsSub "high" L ∧ r.high = none then some q else r.high,
     if containsSub "low" L ∧ r.low = none then some q else r.low,
     if containsSub "last" L ∧ r.last = none then some q else r.last⟩

/-- The row loop of the docs reduceRange. -/
def rrGo : List JVal → Range → Except JErr Range
  | [], r => .ok r
  | rec :: rest, r => do
    let l1 ← getProp rec "price_label_1"
    let v1 ← getProp rec "price_1"
    let r := setIfLabel r l1 v1
    let l2 ← getProp rec "price_label_2"
    let v2 ← getProp rec "price_2"
    rrGo rest (setIfLabel r l2 v2)

/-- reduceRange from the docs script. -/
def reduceRange (records : JVal) : Except JErr Range :=
  match asArr records with
  | none => .ok emptyRange
  | some rs => rrGo rs emptyRange

end Docs

/-! Characterisation functions used by the theorem statements. -/

/-- First-some choice, the shape a first-writer-wins bucket takes. -/
def oor (a b : Option ℚ) : Option ℚ :=
  match a with
  | some x => some x
  | none => b

/-- The (label, value) pairs a row sequence feeds to the docs reduceRange, in
encounter order: for each row the first pair then the second pair. -/
def rrPairsOf (rs : List JVal) : List (JVal × JVal) :=
  rs.flatMap (fun r =>
    [(propOf r "price_label_1", propOf r "price_1"),
     (propOf r "price_label_2", propOf r "price_2")])

/-- Does one pair claim the bucket named by the substring, and with which
numeric value? -/
def rrHit (sub : String) (p : JVal × JVal) : Option ℚ :=
  match Docs.rrVal p.2 with
  | none => none
  | some q => if containsSub sub (Docs.rrLabel p.1) then some q else none

/-- The first numeric value in pair order whose label claims the bucket. -/
def firstHit (sub : String) (rs : List JVal) : Option ℚ :=
  (rrPairsOf rs).findSome? (rrHit sub)

/-- The raw label of a part_002 history row: time stamp, then timestamp, then
label, then null. -/
def mlRawLabel (rec : JVal) : JVal :=
  jsOr (propOf rec "time stamp") (jsOr (propOf rec "timestamp") (jsOr (propOf rec "label") .null))

/-- Does the part_002 history loop drop this row for carrying no parseable
value in either team column? -/
def isDroppedRow (h a : String) (rec : JVal) : Bool :=
  (parseOdds (getTeamField rec h)).isNone && (parseOdds (getTeamField rec a)).isNone

/-- The contribution of one row to the part_002 moneyline history: nothing
for marker rows and for rows with no value on either side, otherwise the
extracted point. -/
def mlPointOf (h a : String) (y : JVal) (yr : Int) (rec : JVal) : Option MovePoint :=
  if isMarkerRow rec then none
  else if isDroppedRow h a rec then none
  else
    let ts := parseTimestampLabel (mlRawLabel rec) y yr
    some ⟨ts.timestamp, ts.label, parseOdds (getTeamField rec h), parseOdds (getTeamField rec a)⟩

/-- The contribution of one row to the current pair: only kept rows whose raw
label is Current (case-insensitively) assign it. -/
def mlCurOf (h a : String) (rec : JVal) : Option CurPair :=
  if isMarkerRow rec then none
  else if isDroppedRow h a rec then none
  else if isCurrentLabel (mlRawLabel rec) then
    some ⟨parseOdds (getTeamField rec h), parseOdds (getTeamField rec a)⟩
  else none

/-- One fold step of the current-pair accumulation: a later assignment
overrides an earlier one. -/
def curStep (h a : String) (c : Option CurPair) (rec : JVal) : Option CurPair :=
  match mlCurOf h a rec with
  | some x => some x
  | none => c

/-- The document convertCompiledNFLObject produces for any non-null scalar
root: every section at its empty default. -/
def scalarRootDoc (h a : String) (y : JVal) (nowIso : String) : Compiled :=
  { meta := ⟨"NFL", jsOr y .null, .null, h, a, nowIso⟩
    dualgamelog := ⟨[], []⟩
    efficiencystats := ⟨[], [], [], []⟩
    headtohead := ⟨[]⟩
    injuryreport := ⟨[], []⟩
    matchupstats :=
      [("home_vs_away_overall_last_season", []), ("away_vs_home_overall_last_season", []),
       ("home_vs_away_rushing_last_season", []), ("away_vs_home_rushing_last_season", []),
       ("home_vs_away_passing_last_season", []), ("away_vs_home_passing_last_season", []),
       ("home_vs_away_kicking_last_season", []), ("away_vs_home_kicking_last_season", []),
       ("home_vs_away_turnovers_last_season", []), ("away_vs_home_turnovers_last_season", []),
       ("home_vs_away_penalties_last_season", []), ("away_vs_home_penalties_last_season", []),
       ("home_vs_away_other_last_season", []), ("away_vs_home_other_last_season", [])]
    moneylineanalysis := ⟨[], []⟩
    moneylinemovement := ⟨⟨none, none⟩, emptyRange, emptyRange, []⟩
    overunderanalysis := ⟨[], []⟩
    overunderlinemovement := ⟨none, emptyRange, []⟩
    overview := ⟨[], []⟩
    pointspreadanalysis := ⟨[], []⟩
    pointspreadlinemovement := ⟨none, emptyRange, []⟩
    powerratings := ⟨[], [], []⟩
    similargamesanalysis := ⟨.null, [], []⟩
    situationaltrends := ⟨[], [], []⟩
    statsplits := ⟨[], [], [], []⟩
    travelanalysis := ⟨⟨h, a, none⟩⟩ }

/-- Erase the only wall-clock field of a conversion result. -/
def scrubGeneratedAt (r : Except JErr Compiled) : Except JErr Compiled :=
  r.map (fun d => { d with meta := { d.meta with generated_at := "" } })

/-- Project a conversion result to its generated-at stamp. -/
def metaGenOf (r : Except JErr Compiled) : Except JErr String :=
  r.map (fun d => d.meta.generated_at)

/-! Concrete documents used by the closed theorems. -/

/-- The end-to-end moneyline scenario document of the specification. -/
def c3root : JVal :=
  .obj [("sections", .obj [("Money Line History", .obj [("moneylinemovement", .arr [
    .obj [("time stamp", .str "Current"), ("BUF", .str "-160"), ("TB", .str "140")],
    .obj [("time stamp", .str "Nov 16 12:18 PM"), ("BUF", .str "-150"), ("TB", .str "130")]])])])]

/-- A document whose located moneyline history array contains a null row. -/
def c1BadInput : JVal :=
  .obj [("sections", .obj [("Money Line History", .obj [("moneylinemovement",
    .arr [JVal.null])])])]

/-- A document carrying the same section name at the exact path (with falsy
content) and at the mirrored path (with an object). -/
def c4root : JVal :=
  .obj [("sections", .obj [("S", .bool false)]),
        ("raw", .obj [("mk", .obj [("data", .obj [("sections",
          .obj [("S", .obj [("x", .num 1)])])])])])]

/-- A document carrying the same section name at both paths, the exact one
truthy. -/
def c4rootW : JVal :=
  .obj [("sections", .obj [("S", .obj [("p", .num 1)])]),
        ("raw", .obj [("mk", .obj [("data", .obj [("sections",
          .obj [("S", .obj [("q", .num 2)])])])])])]

/-- Two rows claiming the open bucket with different values. -/
def c2rows : JVal :=
  .arr [.obj [("price_label_1", .str "Open"), ("price_1", .str "-285")],
        .obj [("price_label_1", .str "Open"), ("price_1", .str "-300")]]

/-- A history row whose column names are lower-case variants of the team
abbreviations. -/
def c5row : JVal :=
  .obj [("time stamp", .str "Current"), ("buf", .str "-160"), ("tb", .str "140")]

/-- A second lower-case-keyed history row, carrying a parseable date label. -/
def c5row2 : JVal :=
  .obj [("time stamp", .str "Nov 16 12:18 PM"), ("buf", .str "-150"), ("tb", .str "130")]

/-- An ordinary moneyline history row labelled Current. -/
def c6row1 : JVal :=
  .obj [("time stamp", .str "Current"), ("BUF", .str "-160"), ("TB", .str "140")]

/-- The marker row of a moneyline history array. -/
def c6marker : JVal := .obj [("label", .str "historic_line_movement")]

/-- An ordinary dated moneyline history row. -/
def c6row2 : JVal :=
  .obj [("time stamp", .str "Nov 16 12:18 PM"), ("BUF", .str "-150"), ("TB", .str "130")]

/-- Range rows with an open-and-high first row and a conflicting open row. -/
def c2wrows : List JVal :=
  [.obj [("price_label_1", .str "Open"), ("price_1", .num (-285)),
         ("price_label_2", .str "High"), ("price_2", .num (-315))],
   .obj [("price_label_1", .str "Open"), ("price_1", .num (-300))]]

/-! Helper lemmas. -/

theorem getProp_nonnull {v : JVal} (hv : v.isNullish = false) (k : String) :
    getProp v k = .ok (propOf v k) := by
  simp [getProp, hv]

theorem jsOr_pos {a : JVal} (ha : jsTruthy a = true) (b : JVal) : jsOr a b = a := by
  simp [jsOr, ha]

theorem jsTruthy_not_nullish {a : JVal} (ha : jsTruthy a = true) : a.isNullish = false := by
  cases a <;> simp_all [jsTruthy, JVal.isNullish]

theorem jsOr_obj_not_nullish (s : JVal) (fs : List (String × JVal)) :
    (jsOr s (.obj fs)).isNullish = false := by
  unfold jsOr
  split
  · exact jsTruthy_not_nullish (by assumption)
  · rfl

theorem oor_none_right (a : Option ℚ) : oor a none = a := by
  cases a <;> rfl

theorem oor_assoc (a b c : Option ℚ) : oor (oor a b) c = oor a (oor b c) := by
  cases a <;> rfl

theorem oor_if (c : Prop) [Decidable c] (o : Option ℚ) (q : ℚ) :
    (if c ∧ o = none then some q else o) = oor o (if c then some q else none) := by
  cases o <;> by_cases hc : c <;> simp [oor, hc]

theorem setIfLabel_eq (r : Range) (l v : JVal) :
    Docs.setIfLabel r l v = ⟨oor r.«open» (rrHit "open" (l, v)), oor r.high (rrHit "high" (l, v)),
      oor r.low (rrHit "low" (l, v)), oor r.last (rrHit "last" (l, v))⟩ := by
  cases hv : Docs.rrVal v <;>
    simp only [Docs.setIfLabel, rrHit, hv, oor_if, oor_none_right]

theorem firstHit_cons (sub : String) (r : JVal) (rest : List JVal) :
    firstHit sub (r :: rest) =
      oor (rrHit sub (propOf r "price_label_1", propOf r "price_1"))
        (oor (rrHit sub (propOf r "price_label_2", propOf r "price_2")) (firstHit sub rest)) := by
  show List.findSome? _ ((propOf r "price_label_1", propOf r "price_1") ::
    (propOf r "price_label_2", propOf r "price_2") :: rrPairsOf rest) = _
  rw [List.findSome?_cons, List.findSome?_cons]
  cases rrHit sub (propOf r "price_label_1", propOf r "price_1") <;>
    cases rrHit sub (propOf r "price_label_2", propOf r "price_2") <;> simp [oor, firstHit]

theorem rrGo_eq (rs : List JVal) (hnn : ∀ r ∈ rs, r.isNullish = false) (st : Range) :
    Docs.rrGo rs st = .ok ⟨oor st.«open» (firstHit "open" rs), oor st.high (firstHit "high" rs),
      oor st.low (firstHit "low" rs), oor st.last (firstHit "last" rs)⟩ := by
  induction rs generalizing st with
  | nil => simp [Docs.rrGo, firstHit, rrPairsOf, oor_none_right]
  | cons r rest ih =>
    have hr : r.isNullish = false := hnn r (by simp)
    have hrest : ∀ x ∈ rest, x.isNullish = false := fun x hx => hnn x (by simp [hx])
    simp only [Docs.rrGo, getProp_nonnull hr]
    show Docs.rrGo rest (Docs.setIfLabel (Docs.setIfLabel st (propOf r "price_label_1")
      (propOf r "price_1")) (propOf r "price_label_2") (propOf r "price_2")) = _
    rw [ih hrest, setIfLabel_eq, setIfLabel_eq, firstHit_cons, firstHit_cons,
      firstHit_cons, firstHit_cons]
    simp [oor_assoc]

theorem bind_ok {α β : Type} (a : α) (f : α → Except JErr β) :
    ((Except.ok a : Except JErr α) >>= f) = f a := rfl

theorem mlhGo_fixed (ph pa : String) (y : JVal) (yr : Int) (ks : Docs.TeamKeys)
    (rows : List JVal) (hnn : ∀ r ∈ rows, r.isNullish = false) (acc : List MovePoint) :
    Docs.mlhGo ph pa y yr rows (some ks) acc
      = .ok (acc ++ rows.filterMap (Docs.pointOfRow ks y yr)) := by
  induction rows generalizing acc with
  | nil => simp [Docs.mlhGo]
  | cons r rest ih =>
    have hr : r.isNullish = false := hnn r (by simp)
    have hrest : ∀ x ∈ rest, x.isNullish = false := fun x hx => hnn x (by simp [hx])
    simp only [Docs.mlhGo, getProp_nonnull hr, bind_ok]
    by_cases hd : (Docs.parseMoney (Docs.propOfKey r ks.homeKey)).isNone
        && (Docs.parseMoney (Docs.propOfKey r ks.awayKey)).isNone
    · simp only [hd, if_pos rfl]
      rw [ih hrest]
      simp [List.filterMap_cons, Docs.pointOfRow, hd]
    · simp only [hd]
      rw [if_neg (by simp [hd]), ih hrest]
      simp [List.filterMap_cons, Docs.pointOfRow, hd]

theorem isMarkerRow_def (rec : JVal) :
    (jsTruthy (propOf rec "label")
      && containsSub "historic_line_movement" (jsLower (jsToString (propOf rec "label"))))
    = isMarkerRow rec := rfl

theorem isDroppedRow_def (h a : String) (rec : JVal) :
    ((parseOdds (getTeamField rec h)).isNone && (parseOdds (getTeamField rec a)).isNone)
    = isDroppedRow h a rec := rfl

theorem mlPointOf_marker {m : JVal} (hm : isMarkerRow m = true) (h a : String) (y : JVal)
    (yr : Int) : mlPointOf h a y yr m = none := by
  simp [mlPointOf, hm]

theorem curStep_marker {m : JVal} (hm : isMarkerRow m = true) (h a : String)
    (c : Option CurPair) : curStep h a c m = c := by
  simp [curStep, mlCurOf, hm]

theorem mlPointOf_dropped {h a : String} {r : JVal} (hd : isDroppedRow h a r = true)
    (y : JVal) (yr : Int) : mlPointOf h a y yr r = none := by
  by_cases hm : isMarkerRow r <;> simp [mlPointOf, hm, hd]

theorem curStep_dropped {h a : String} {r : JVal} (hd : isDroppedRow h a r = true)
    (c : Option CurPair) : curStep h a c r = c := by
  by_cases hm : isMarkerRow r <;> simp [curStep, mlCurOf, hm, hd]

theorem mlRowsGo_eq (h a : String) (y : JVal) (yr : Int) (rows : List JVal)
    (hnn : ∀ r ∈ rows, r.isNullish = false) (acc : List MovePoint) (cur : Option CurPair) :
    mlRowsGo h a y yr rows acc cur
      = .ok (acc ++ rows.filterMap (mlPointOf h a y yr), rows.foldl (curStep h a) cur) := by
  induction rows generalizing acc cur with
  | nil => simp [mlRowsGo]
  | cons r rest ih =>
    have hr : r.isNullish = false := hnn r (by simp)
    have hrest : ∀ x ∈ rest, x.isNullish = false := fun x hx => hnn x (by simp [hx])
    simp only [mlRowsGo, getProp_nonnull hr, bind_ok, isMarkerRow_def, isDroppedRow_def]
    by_cases hm : isMarkerRow r
    · simp only [hm, if_pos rfl]
      rw [ih hrest]
      simp [List.filterMap_cons, mlPointOf_marker hm, curStep_marker hm]
    · simp only [hm]
      rw [if_neg (by simp [hm])]
      by_cases hd : isDroppedRow h a r
      · simp only [hd, if_pos rfl]
        rw [ih hrest]
        simp [List.filterMap_cons, mlPointOf, mlCurOf, curStep, hm, hd]
      · simp only [hd]
        rw [if_neg (by simp [hd]), ih hrest]
        simp only [show jsOr (propOf r "time stamp")
          (jsOr (propOf r "timestamp") (jsOr (propOf r "label") JVal.null)) = mlRawLabel r from rfl]
        by_cases hc : isCurrentLabel (mlRawLabel r) <;>
          simp [List.filterMap_cons, mlPointOf, mlCurOf, curStep, hm, hd, hc]

theorem filterMap_eq_filterMap_filter {α β : Type} (f : α → Option β) (p : α → Bool)
    (hnone : ∀ r, p r = false → f r = none) :
    ∀ l : List α, l.filterMap f = (l.filter p).filterMap f := by
  intro l
  induction l with
  | nil => rfl
  | cons r rest ih =>
    cases hp : p r
    · simp [List.filter_cons, hp, List.filterMap_cons, hnone r hp, ih]
    · simp [List.filter_cons, hp, List.filterMap_cons, ih]

theorem foldl_eq_foldl_filter {α β : Type} (step : β → α → β) (p : α → Bool)
    (hid : ∀ c r, p r = false → step c r = c) :
    ∀ (l : List α) (c : β), l.foldl step c = (l.filter p).foldl step c := by
  intro l
  induction l with
  | nil => intro c; rfl
  | cons r rest ih =>
    intro c
    cases hp : p r
    · simp [List.filter_cons, hp, List.foldl_cons, hid c r hp, ih]
    · simp [List.filter_cons, hp, List.foldl_cons, ih]

theorem pTL_clock {y : JVal} (hy : jsTruthy y = true) (l : JVal) (yr : Int) :
    parseTimestampLabel l y yr = parseTimestampLabel l y 0 := by
  cases l <;> simp [parseTimestampLabel, jsOr, hy]

theorem mlRowsGo_clock {y : JVal} (hy : jsTruthy y = true) (h a : String) (yr : Int) :
    ∀ (rows : List JVal) (acc : List MovePoint) (cur : Option CurPair),
      mlRowsGo h a y yr rows acc cur = mlRowsGo h a y 0 rows acc cur := by
  intro rows
  induction rows with
  | nil => intro acc cur; rfl
  | cons r rest ih =>
    intro acc cur
    simp only [mlRowsGo, pTL_clock hy, ih]

theorem spreadRowsGo_clock {y : JVal} (hy : jsTruthy y = true) (yr : Int) :
    ∀ (rows : List JVal) (acc : List SpreadPoint) (cur : Option ℚ),
      spreadRowsGo y yr rows acc cur = spreadRowsGo y 0 rows acc cur := by
  intro rows
  induction rows with
  | nil => intro acc cur; rfl
  | cons r rest ih =>
    intro acc cur
    simp only [spreadRowsGo, pTL_clock hy, ih]

theorem totalsRowsGo_clock {y : JVal} (hy : jsTruthy y = true) (yr : Int) :
    ∀ (rows : List JVal) (acc : List TotalPoint) (cur : Option ℚ),
      totalsRowsGo y yr rows acc cur = totalsRowsGo y 0 rows acc cur := by
  intro rows
  induction rows with
  | nil => intro acc cur; rfl
  | cons r rest ih =>
    intro acc cur
    simp only [totalsRowsGo, pTL_clock hy, ih]

theorem restSections_clock {y : JVal} (hy : jsTruthy y = true) (input : JVal) (h a : String)
    (yr : Int) : restSections input h a y yr = restSections input h a y 0 := by
  simp only [restSections, extractMoneyLineMovement, extractSpreadMovement,
    extractTotalsMovement, mlRowsGo_clock hy, spreadRowsGo_clock hy, totalsRowsGo_clock hy]

/-! Claim theorems. -/

/-- C1: the claim says every input document converts to a document carrying
all eighteen top-level keys.  The code contradicts this (and its own header
comment that missing or malformed data never crashes the script): a located
history array containing a null row makes convertCompiledNFLObject throw a
TypeError while reading the label property of null, so no document at all is
produced for that input.  This theorem evaluates the converter at the failing
input. -/
theorem convert_throws_on_null_history_row :
    convertCompiledNFLObject c1BadInput "BUF" "TB" (.num 2021)
      "2025-01-01T00:00:00.000Z" 2025 = .error (.typeError "label") := rfl

/-- C3: the end-to-end moneyline scenario.  On the specified document with
home BUF, away TB and season 2021 (for any ambient clock year), the converted
moneylinemovement has current home negative one-sixty and away one-forty, a
two-entry history in input order, and the second entry carries the timestamp
2021-11-16T12:18:00Z. -/
theorem extractMoneyLineMovement_buf_tb_scenario (yr : Int) :
    extractMoneyLineMovement c3root "BUF" "TB" (.num 2021) yr =
      .ok ⟨⟨some (-160), some 140⟩, emptyRange, emptyRange,
        [⟨none, .str "Current", some (-160), some 140⟩,
         ⟨some "2021-11-16T12:18:00Z", .str "Nov 16 12:18 PM", some (-150), some 130⟩]⟩ := rfl

/-- C8 counterexample: the claim says a non-object root makes the engine
refuse to produce output.  Converting the numeric root five instead returns a
complete default document — convertCompiledNFLObject performs no root-type
validation at all. -/
theorem convert_scalar_root_returns_document :
    convertCompiledNFLObject (.num 5) "BUF" "TB" .null "2025-01-01T00:00:00.000Z" 2025
      = .ok (scalarRootDoc "BUF" "TB" .null "2025-01-01T00:00:00.000Z") := rfl

set_option maxHeartbeats 2000000 in
/-- C8 as amended: the engine itself accepts any non-null scalar root and
returns the fully-defaulted document (a null root instead escapes as a thrown
TypeError); the only context validation lives in the CLI wrapper main, whose
usage check rejects a missing or empty team abbreviation before the converter
runs. -/
theorem convert_scalar_root_default_and_cli_usage :
    (∀ (q : ℚ) (h a : String) (y : JVal) (now : String) (yr : Int),
      convertCompiledNFLObject (.num q) h a y now yr = .ok (scalarRootDoc h a y now))
    ∧ (∀ (s h a : String) (y : JVal) (now : String) (yr : Int),
      convertCompiledNFLObject (.str s) h a y now yr = .ok (scalarRootDoc h a y now))
    ∧ (∀ (b : Bool) (h a : String) (y : JVal) (now : String) (yr : Int),
      convertCompiledNFLObject (.bool b) h a y now yr = .ok (scalarRootDoc h a y now))
    ∧ (∀ ip op aw : String, mainUsageError ip op "" aw = true)
    ∧ (∀ ip op hm : String, mainUsageError ip op hm "" = true)
    ∧ convertCompiledNFLObject .null "BUF" "TB" .null "2025-01-01T00:00:00.000Z" 2025
        = .error (.typeError "meta") := by
  refine ⟨fun q h a y now yr => rfl, fun s h a y now yr => rfl, fun b h a y now yr => rfl,
    fun ip op aw => ?_, fun ip op hm => ?_, rfl⟩
  · simp [mainUsageError]
  · simp [mainUsageError]

/-- C9 counterexample: the claim says two invocations on equal inputs return
equal documents including every meta field.  The generated-at meta field is
the wall-clock reading, so two invocations at different instants differ. -/
theorem convert_generated_at_clock_dependent :
    metaGenOf (convertCompiledNFLObject (.obj []) "BUF" "TB" (.num 2021)
        "2025-01-01T00:00:00.000Z" 2025)
      ≠ metaGenOf (convertCompiledNFLObject (.obj []) "BUF" "TB" (.num 2021)
        "2025-01-02T00:00:00.000Z" 2025) := by
  intro h
  rw [show metaGenOf (convertCompiledNFLObject (.obj []) "BUF" "TB" (.num 2021)
        "2025-01-01T00:00:00.000Z" 2025) = Except.ok "2025-01-01T00:00:00.000Z" from rfl,
      show metaGenOf (convertCompiledNFLObject (.obj []) "BUF" "TB" (.num 2021)
        "2025-01-02T00:00:00.000Z" 2025) = Except.ok "2025-01-02T00:00:00.000Z" from rfl] at h
  exact absurd (Except.ok.inj h) (by decide)

/-- C2 counterexample: the claim says every range reducer lets the first
matching pair win.  In buildRangeFromRows of part_002 the assignment is
unconditional, so the second conflicting Open row overwrites the first and
the resulting open bucket is the later value, not the earlier one. -/
theorem buildRangeFromRows_last_write_wins :
    buildRangeFromRows c2rows = .ok ⟨some (-300), none, none, none⟩
    ∧ (some (-300 : ℚ) ≠ some (-285 : ℚ)) := by
  refine ⟨rfl, by decide⟩

/-- C4 counterexample: the claim says that whenever a section exists at both
the exact path and the mirrored path with different content, the exact path
wins.  findSection tests truthiness, not presence: a falsy entry at the exact
path (here the boolean false) is skipped and the mirrored content is returned
instead. -/
theorem findSection_falsy_primary_falls_through :
    hasOwnStep (propOf c4root "sections") "S" = true
    ∧ propOf (propOf c4root "sections") "S" = .bool false
    ∧ findSection c4root "S" "mk" = .ok (.obj [("x", .num 1)])
    ∧ findSection c4root "S" "mk" ≠ .ok (.bool false) := by
  refine ⟨rfl, rfl, rfl, ?_⟩
  intro h
  rw [show findSection c4root "S" "mk" = Except.ok (JVal.obj [("x", JVal.num 1)]) from rfl] at h
  exact JVal.noConfusion (Except.ok.inj h)

/-- C4 as amended: the exact-path content is returned whenever it is truthy;
the mirrored path is consulted when the exact entry is absent or falsy. -/
theorem findSection_truthy_primary_precedence (root : JVal) (label rawKey : String) (s : JVal)
    (hs : getProp root "sections" = .ok s)
    (ht : jsTruthy (propOf (jsOr s (.obj [])) label) = true) :
    findSection root label rawKey = .ok (propOf (jsOr s (.obj [])) label) := by
  unfold findSection
  rw [hs]
  show (getProp (jsOr s (.obj [])) label).bind _ = _
  rw [getProp_nonnull (jsOr_obj_not_nullish s []) label]
  simp [Except.bind, ht]
  rfl

/-- C4 witness: applying the precedence theorem to a document carrying a
truthy section at both paths returns the exact-path content. -/
theorem findSection_truthy_primary_precedence_witness :
    findSection c4rootW "S" "mk" = .ok (.obj [("p", .num 1)]) :=
  findSection_truthy_primary_precedence c4rootW "S" "mk"
    (.obj [("S", .obj [("p", .num 1)])]) rfl rfl

/-- C5 counterexample: the claim says the extractor prefers an exact
case-insensitive match of the context abbreviations.  detectTeamKeys matches
the abbreviations case-sensitively, so a row keyed buf and tb with context
BUF and TB falls back to positional inference, which binds tb as home — the
extracted home value is the tb column (one-forty), not the BUF value
(negative one-sixty). -/
theorem extractMoneyLineHistory_case_sensitive_binding :
    Docs.extractMoneyLineHistory (.arr [c5row]) "BUF" "TB" (.str "2021") 2025
      = .ok [⟨none, .str "Current", some 140, some (-160)⟩]
    ∧ Docs.detectTeamKeys c5row "BUF" "TB" = ⟨some "tb", some "buf"⟩
    ∧ (some (140 : ℚ) ≠ some (-160 : ℚ)) := by
  refine ⟨rfl, rfl, by decide⟩

/-- C7 counterexample: the claim says every string matching no shape whose
numeric parse also fails is preserved under value.  The placeholder string of
two dashes matches no shape and fails the numeric parse, yet parsePercentRank
discards it and returns null. -/
theorem parsePercentRank_dashes_discarded :
    parsePercentRank (.str "--") = none
    ∧ parsePercentRank (.str " ") = none := ⟨rfl, rfl⟩

/-- C7 as amended: the four shapes are recognised in order — percent with
rank, number with rank, percent only, bare number — dividing percent forms by
one hundred, with the three cited examples; and every other string that is
not empty or the two-dash placeholder after trimming, and whose plain numeric
parse fails, keeps its trimmed text under value. -/
theorem parsePercentRank_shapes :
    parsePercentRank (.str "36.52% (#24)") = some ⟨.num ((3652 : ℚ)/10000), some 24⟩
    ∧ parsePercentRank (.str "24.4 (#11)") = some ⟨.num ((244 : ℚ)/10), some 11⟩
    ∧ parsePercentRank (.str "36.52%") = some ⟨.num ((3652 : ℚ)/10000), none⟩
    ∧ parsePercentRank (.str "150") = some ⟨.num 150, none⟩
    ∧ (∀ s : String, jsTrim s ≠ "" → jsTrim s ≠ "--" →
        pctRankPctShape (jsTrim s).data = none →
        pctRankNumShape (jsTrim s).data = none →
        pctOnlyShape (jsTrim s).data = none →
        parseNumberOrNull (.str (jsTrim s)) = none →
        parsePercentRank (.str s) = some ⟨.str (jsTrim s), none⟩) := by
  refine ⟨?_, ?_, ?_, ?_, ?_⟩
  · have e1 : parsePercentRank (.str "36.52% (#24)")
        = some ⟨numOrNaN ((jsNumberChars ['3','6','.','5','2']).map (fun q => q / 100)),
            some ((digitsToNat ['2','4'] : ℚ))⟩ := rfl
    have e2 : jsNumberChars ['3','6','.','5','2']
        = some (((3652 : Int) : ℚ) / (10 : ℚ) ^ 2) := rfl
    rw [e1, e2, show digitsToNat ['2','4'] = 24 from rfl]
    simp only [Option.map, numOrNaN]
    norm_num
  · have e1 : parsePercentRank (.str "24.4 (#11)")
        = some ⟨numOrNaN (jsNumberChars ['2','4','.','4']),
            some ((digitsToNat ['1','1'] : ℚ))⟩ := rfl
    have e2 : jsNumberChars ['2','4','.','4'] = some (((244 : Int) : ℚ) / (10 : ℚ) ^ 1) := rfl
    rw [e1, e2, show digitsToNat ['1','1'] = 11 from rfl]
    simp only [numOrNaN]
    norm_num
  · have e1 : parsePercentRank (.str "36.52%")
        = some ⟨numOrNaN ((jsNumberChars ['3','6','.','5','2']).map (fun q => q / 100)),
            none⟩ := rfl
    have e2 : jsNumberChars ['3','6','.','5','2']
        = some (((3652 : Int) : ℚ) / (10 : ℚ) ^ 2) := rfl
    rw [e1, e2]
    simp only [Option.map, numOrNaN]
    norm_num
  · have e1 : parsePercentRank (.str "150") = some ⟨.num (((150 : Int) : ℚ)), none⟩ := rfl
    rw [e1]; norm_num
  · intro s h1 h2 h3 h4 h5 h6
    simp [parsePercentRank, h1, h2, h3, h4, h5, h6]

/-- C7 witness: the lossless fallback applied to a concrete unparseable
string. -/
theorem parsePercentRank_shapes_witness :
    parsePercentRank (.str "N/A") = some ⟨.str "N/A", none⟩ :=
  parsePercentRank_shapes.2.2.2.2 "N/A" (by decide) (by decide) rfl rfl rfl rfl

/-- C9 as amended: the conversion is deterministic apart from its wall-clock
reads.  With a truthy seasonYear (so no timestamp falls back to the current
year), two invocations on equal inputs at different instants and clock years
agree everywhere except the meta generated-at stamp: erasing that one field
makes the results equal, whether the conversion succeeds or throws. -/
theorem convert_deterministic_modulo_generated_at (input : JVal) (h a : String) (y : JVal)
    (now1 now2 : String) (yr1 yr2 : Int) (hy : jsTruthy y = true) :
    scrubGeneratedAt (convertCompiledNFLObject input h a y now1 yr1)
      = scrubGeneratedAt (convertCompiledNFLObject input h a y now2 yr2) := by
  simp only [convertCompiledNFLObject, restSections_clock hy, extractMeta]
  cases hgp : getProp input "meta" with
  | error e => simp [Except.bind, scrubGeneratedAt, hgp, Except.map]
  | ok v =>
    simp only [hgp, bind_ok]
    cases hR : restSections input h a y 0 with
    | error e => simp [Except.bind, scrubGeneratedAt, hR, Except.map]
    | ok r => simp [Except.bind, scrubGeneratedAt, hR, Except.map]

/-- C9 witness: the scrubbed conversions of the empty document at two
different instants and clock years coincide. -/
theorem convert_deterministic_modulo_generated_at_witness :
    scrubGeneratedAt (convertCompiledNFLObject (.obj []) "BUF" "TB" (.num 2021)
        "2025-01-01T00:00:00.000Z" 2020)
      = scrubGeneratedAt (convertCompiledNFLObject (.obj []) "BUF" "TB" (.num 2021)
        "2025-01-02T00:00:00.000Z" 2030) :=
  convert_deterministic_modulo_generated_at (.obj []) "BUF" "TB" (.num 2021)
    "2025-01-01T00:00:00.000Z" "2025-01-02T00:00:00.000Z" 2020 2030 (by decide)

/-- C2 as amended: the first-match-wins behaviour the claim describes is the
one of reduceRange in docs/scripts/convert-compiled-nfl.js (and of part_000):
over the row pairs in input order — first pair then second pair of each row —
every bucket receives the first numeric value whose label contains its
substring, later pairs never overwrite it, and the result is always a
complete record with never-matched buckets null.  In part_002's
buildRangeFromRows, by contrast, the last matching pair wins (see the
counterexample). -/
theorem reduceRange_first_match_wins (rs : List JVal)
    (hnn : ∀ r ∈ rs, r.isNullish = false) :
    Docs.reduceRange (.arr rs)
      = .ok ⟨firstHit "open" rs, firstHit "high" rs, firstHit "low" rs, firstHit "last" rs⟩ := by
  show Docs.rrGo rs emptyRange = _
  rw [rrGo_eq rs hnn]
  rfl

/-- C2 witness: on two rows whose open labels conflict, the first value wins
and the untouched buckets stay null. -/
theorem reduceRange_first_match_wins_witness :
    Docs.reduceRange (.arr c2wrows) = .ok ⟨some (-285), some (-315), none, none⟩ := by
  rw [reduceRange_first_match_wins c2wrows (by decide)]
  rfl

/-- C5 as amended: the column binding of extractMoneyLineHistory is decided
exactly once, from detectTeamKeys on the first row, and that same binding
maps every row of the array (first conclusion); the preferred binding to the
context abbreviations requires both to occur literally — case-sensitively —
among the first row's non-reserved keys (second conclusion); otherwise the
first two non-reserved keys are bound, first as away and second as home, as
detectTeamKeys defines.  The claim's case-insensitive preference is refuted
by the counterexample. -/
theorem extractMoneyLineHistory_binding_stability (r : JVal) (rs : List JVal) (ph pa : String)
    (y : JVal) (yr : Int) (hnn : ∀ x ∈ r :: rs, x.isNullish = false) :
    Docs.extractMoneyLineHistory (.arr (r :: rs)) ph pa y yr
      = .ok ((r :: rs).filterMap (Docs.pointOfRow (Docs.detectTeamKeys r ph pa) y yr))
    ∧ (ph ≠ "" → pa ≠ "" → (Docs.teamCandidateKeys r).contains ph →
        (Docs.teamCandidateKeys r).contains pa →
        Docs.detectTeamKeys r ph pa = ⟨some ph, some pa⟩) := by
  constructor
  · have hr : r.isNullish = false := hnn r (by simp)
    have hrest : ∀ x ∈ rs, x.isNullish = false := fun x hx => hnn x (by simp [hx])
    show Docs.mlhGo ph pa y yr (r :: rs) none [] = _
    simp only [Docs.mlhGo, getProp_nonnull hr, bind_ok]
    by_cases hd : (Docs.parseMoney (Docs.propOfKey r (Docs.detectTeamKeys r ph pa).homeKey)).isNone
        && (Docs.parseMoney (Docs.propOfKey r (Docs.detectTeamKeys r ph pa).awayKey)).isNone
    · simp only [hd, if_pos rfl]
      rw [mlhGo_fixed ph pa y yr _ rs hrest]
      simp [List.filterMap_cons, Docs.pointOfRow, hd]
    · simp only [hd]
      rw [if_neg (by simp [hd]), mlhGo_fixed ph pa y yr _ rs hrest]
      simp [List.filterMap_cons, Docs.pointOfRow, hd]
  · intro h1 h2 h3 h4
    have h3m : ph ∈ Docs.teamCandidateKeys r := by simpa using h3
    have h4m : pa ∈ Docs.teamCandidateKeys r := by simpa using h4
    simp [Docs.detectTeamKeys, h1, h2, h3m, h4m]

/-- C6: the part_002 history loop excludes marker rows entirely without
disturbing the remaining order (first conclusion: the extraction over the
array with the marker row equals the extraction over the array without it),
every kept point has a home or an away value (second conclusion), and rows
whose two team columns both parse to null contribute nothing (third
conclusion: rows failing that test can be filtered away without changing the
result). -/
theorem mlHistory_marker_and_null_filtering (pre post : List JVal) (m : JVal) (h a : String)
    (y : JVal) (yr : Int) (hnn : ∀ r ∈ pre ++ m :: post, r.isNullish = false)
    (hm : isMarkerRow m = true) :
    mlRowsGo h a y yr (pre ++ m :: post) [] none = mlRowsGo h a y yr (pre ++ post) [] none
    ∧ (∀ pts cur, mlRowsGo h a y yr (pre ++ m :: post) [] none = .ok (pts, cur) →
        ∀ p ∈ pts, p.home ≠ none ∨ p.away ≠ none)
    ∧ mlRowsGo h a y yr (pre ++ m :: post) [] none
        = mlRowsGo h a y yr ((pre ++ m :: post).filter (fun r => !isDroppedRow h a r)) [] none := by
  have hnn2 : ∀ r ∈ pre ++ post, r.isNullish = false := by
    intro r hr
    refine hnn r ?_
    rcases List.mem_append.1 hr with h1 | h2
    · exact List.mem_append.2 (Or.inl h1)
    · exact List.mem_append.2 (Or.inr (List.mem_cons_of_mem m h2))
  have hnn3 : ∀ r ∈ (pre ++ m :: post).filter (fun r => !isDroppedRow h a r),
      r.isNullish = false := fun r hr => hnn r (List.mem_filter.1 hr).1
  refine ⟨?_, ?_, ?_⟩
  · rw [mlRowsGo_eq h a y yr _ hnn, mlRowsGo_eq h a y yr _ hnn2]
    simp [List.filterMap_append, List.filterMap_cons, mlPointOf_marker hm,
      List.foldl_append, List.foldl_cons, curStep_marker hm]
  · intro pts cur heq p hp
    rw [mlRowsGo_eq h a y yr _ hnn] at heq
    have hinj := Except.ok.inj heq
    rw [Prod.mk.injEq] at hinj
    rw [← hinj.1] at hp
    simp only [List.nil_append] at hp
    obtain ⟨r, _, hpr⟩ := List.mem_filterMap.1 hp
    unfold mlPointOf at hpr
    by_cases hmk : isMarkerRow r
    · simp [hmk] at hpr
    · by_cases hdr : isDroppedRow h a r
      · simp [hmk, hdr] at hpr
      · simp only [hmk, hdr, if_neg, Bool.false_eq_true, not_false_eq_true] at hpr
        have hp2 : p = ⟨(parseTimestampLabel (mlRawLabel r) y yr).timestamp,
            (parseTimestampLabel (mlRawLabel r) y yr).label,
            parseOdds (getTeamField r h), parseOdds (getTeamField r a)⟩ := by
          simpa using hpr.symm
        unfold isDroppedRow at hdr
        cases hh : parseOdds (getTeamField r h) with
        | some q => left; rw [hp2]; simp [hh]
        | none =>
          right
          rw [hp2]
          cases ha2 : parseOdds (getTeamField r a) with
          | some q => simp [ha2]
          | none => exact absurd (by simp [hh, ha2]) hdr
  · rw [mlRowsGo_eq h a y yr _ hnn, mlRowsGo_eq h a y yr _ hnn3]
    rw [← filterMap_eq_filterMap_filter _ _
      (fun r hr => mlPointOf_dropped (by simpa using hr) y yr)]
    rw [← foldl_eq_foldl_filter _ _
      (fun c r hr => curStep_dropped (by simpa using hr) c)]

/-- C6 witness: a three-row history whose middle row is the marker — removing
the marker row leaves the extraction unchanged. -/
theorem mlHistory_marker_and_null_filtering_witness :
    mlRowsGo "BUF" "TB" (.num 2021) 2025 [c6row1, c6marker, c6row2] [] none
      = mlRowsGo "BUF" "TB" (.num 2021) 2025 [c6row1, c6row2] [] none :=
  (mlHistory_marker_and_null_filtering [c6row1] [c6row2] c6marker "BUF" "TB" (.num 2021) 2025
    (by decide) (by decide)).1

/-- C5 witness: a two-row array with lower-case team keys — the binding
inferred from the first row (tb as home, buf as away) is reused for the
second row, whose dated label also exercises the timestamp path. -/
theorem extractMoneyLineHistory_binding_stability_witness :
    Docs.extractMoneyLineHistory (.arr [c5row, c5row2]) "BUF" "TB" (.str "2021") 2025
      = .ok [⟨none, .str "Current", some 140, some (-160)⟩,
             ⟨some "2021-11-16T12:18:00.000Z", .str "Nov 16 12:18 PM", some 130, some (-150)⟩] := by
  rw [(extractMoneyLineHistory_binding_stability c5row [c5row2] "BUF" "TB" (.str "2021") 2025
    (by decide)).1]
  rfl

end StatGPT
